import Mathlib

/-!
# Extension Manager dialog: change-set applier, drop classifier, tab cycling

A shallow embedding of `src/extensibility/ExtensionManagerDialog.js`.

The module is orchestration code: it sequences calls to collaborators
(`ExtensionManager`, `Dialogs`, `CommandManager`, `FileSystem`, `Package`) and reacts
to their results.  The embedding makes every collaborator result an explicit input
(a scenario record) and every collaborator call an explicit output (a trace of
effects, in program order), so that a statement such as "reload is executed exactly
once" is a statement about the trace.

Collaborators are assumed not to throw from the calls made here (`dlg.close()`,
`CommandManager.execute`, `console.error`, ...); property accesses on values the
module receives are modelled, including the one that can fail
(`file.isFile` on a missing file entry).
-/

namespace ExtensionManagerDialog

/-! ## Collaborator vocabulary -/

/-- Keys of the `strings` module read by this file.  Their text lives outside this
file; only the identity of the key matters here. -/
inductive Strings
  | CHANGE_AND_RELOAD
  | REMOVE_AND_RELOAD
  | UPDATE_AND_RELOAD
  | CHANGE_AND_RELOAD_TITLE
  | CHANGE_AND_RELOAD_MESSAGE
  | CANCEL
  | PROCESSING_EXTENSIONS
  | EXTENSION_MANAGER_UPDATE
  | EXTENSION_MANAGER_UPDATE_ERROR
  | EXTENSION_MANAGER_REMOVE
  | EXTENSION_MANAGER_REMOVE_ERROR
  deriving DecidableEq, Repr

/-- Dialog kinds of `DefaultDialogs` used by this file. -/
inductive DefaultDialogs
  | DIALOG_ID_CHANGE_EXTENSIONS
  | DIALOG_ID_ERROR
  deriving DecidableEq, Repr

/-- Button ids delivered with a `buttonClick` event: the two ids the prompt declares,
and `other` for any id different from both. -/
inductive ButtonId
  | DIALOG_BTN_CANCEL
  | DIALOG_BTN_OK
  | other (id : String)
  deriving DecidableEq, Repr

/-- Button classes of `Dialogs`. -/
inductive ButtonClass
  | DIALOG_BTN_CLASS_NORMAL
  | DIALOG_BTN_CLASS_PRIMARY
  deriving DecidableEq, Repr

/-- One entry of the `buttons` array handed to `Dialogs.showModalDialog`. -/
structure Button where
  className : ButtonClass
  id : ButtonId
  text : Strings
  deriving DecidableEq, Repr

/-- Commands executed through `CommandManager.execute`. -/
inductive Commands
  | APP_RELOAD
  deriving DecidableEq, Repr

/-- The `error` field of an `{item, error}` entry: absent, an array of package
errors (it has `forEach`), or any other value. -/
inductive ErrorValue
  | undefined
  | array (errors : List String)
  | other (e : String)
  deriving DecidableEq, Repr

/-- One `{item, error}` entry of the array a failed batch rejects with. -/
structure ErrorObj where
  item : String
  error : ErrorValue
  deriving DecidableEq, Repr

/-- How a batch promise (`removeMarkedExtensions()`, `updateExtensions()`) settles. -/
inductive BatchResult
  | resolved
  | rejected (errorArray : List ErrorObj)
  deriving DecidableEq, Repr

/-- The message argument of `Dialogs.showModalDialog`: a string constant, or
`StringUtils.format(template, arg)`. -/
inductive Message
  | text (s : Strings)
  | format (template : Strings) (arg : String)
  deriving DecidableEq, Repr

/-- One argument of a `console.error` call. -/
inductive ConsoleArg
  | str (s : String)
  | obj (errorObj : ErrorObj)
  deriving DecidableEq, Repr

/-- The collaborator calls `_performChanges` makes, as they appear in the trace. -/
inductive Effect
  /-- The call `Dialogs.showModalDialog(dlgClass, title, message, buttons, autoDismiss)`;
  the last two are `none` when the call omits them. -/
  | showModalDialog (dlgClass : DefaultDialogs) (title : Strings) (message : Message)
      (buttons : Option (List Button)) (autoDismiss : Option Bool)
  /-- The call `$dlg.find(".dialog-button").prop("disabled", true)`. -/
  | disableButtons
  /-- The call `$dlg.find(".close").hide()`. -/
  | hideClose
  /-- The call `$dlg.find(".dialog-message").text(s).append(spinner)`. -/
  | showProcessing (s : Strings)
  /-- The call `dlg.close()` on the confirmation prompt. -/
  | dlgClose
  | removeMarkedExtensions
  | updateExtensions
  | cleanupUpdates
  | unmarkAllForRemoval
  | consoleError (args : List ConsoleArg)
  /-- The call `CommandManager.execute(cmd)`. -/
  | execute (cmd : Commands)
  deriving DecidableEq, Repr

/-- Everything `_performChanges` learns from outside: the two flags of
`ExtensionManager`, the first `buttonClick` on the prompt (`none`: not clicked yet),
how the two batches settle, whether the error summary dialog has been dismissed
(its promise resolved), and `Package.formatError`. -/
structure Scenario where
  hasExtensionsToRemove : Bool
  hasExtensionsToUpdate : Bool
  buttonClick : Option ButtonId
  removeMarkedExtensions : BatchResult
  updateExtensions : BatchResult
  errorDialogClosed : Bool
  formatError : String → String

/-! ## `_performChanges` (source lines 64-168) -/

/-- Lines 72-77: the label of the primary button. -/
def buttonLabel (hasRemovedExtensions hasUpdatedExtensions : Bool) : Strings :=
  if hasRemovedExtensions && !hasUpdatedExtensions then
    Strings.REMOVE_AND_RELOAD
  else if hasUpdatedExtensions && !hasRemovedExtensions then
    Strings.UPDATE_AND_RELOAD
  else
    Strings.CHANGE_AND_RELOAD

/-- Lines 79-96: the confirmation prompt, with the given primary label. -/
def confirmationPrompt (label : Strings) : Effect :=
  Effect.showModalDialog
    DefaultDialogs.DIALOG_ID_CHANGE_EXTENSIONS
    Strings.CHANGE_AND_RELOAD_TITLE
    (Message.text Strings.CHANGE_AND_RELOAD_MESSAGE)
    (some [
      { className := ButtonClass.DIALOG_BTN_CLASS_NORMAL,
        id := ButtonId.DIALOG_BTN_CANCEL,
        text := Strings.CANCEL },
      { className := ButtonClass.DIALOG_BTN_CLASS_PRIMARY,
        id := ButtonId.DIALOG_BTN_OK,
        text := label }])
    (some false)

/-- Lines 124-134, the body of the `forEach` of the update failure handler, console
part: what is logged for one entry. -/
def logUpdateError (formatError : String → String) (errorObj : ErrorObj) : List Effect :=
  match errorObj.error with
  | ErrorValue.array errors =>
      Effect.consoleError [ConsoleArg.str "Errors for", ConsoleArg.str errorObj.item]
        :: errors.map (fun error => Effect.consoleError [ConsoleArg.str (formatError error)])
  | _ =>
      [Effect.consoleError
        [ConsoleArg.str "Error for", ConsoleArg.str errorObj.item, ConsoleArg.obj errorObj]]

/-- The `ids` array both failure handlers build (`ids.push(errorObj.item)`), joined
with `", "`. -/
def joinedIds (errorArray : List ErrorObj) : String :=
  ", ".intercalate (errorArray.map (fun errorObj => errorObj.item))

/-- The `.then` callback of an error summary dialog (lines 139-142 and 157-160): it
runs once the dialog is dismissed. -/
def afterErrorDialog (errorDialogClosed : Bool) : List Effect :=
  if errorDialogClosed then [Effect.execute Commands.APP_RELOAD] else []

/-- Lines 135-139: the error summary of a failed update batch. -/
def updateErrorDialog (errorArray : List ErrorObj) : Effect :=
  Effect.showModalDialog
    DefaultDialogs.DIALOG_ID_ERROR
    Strings.EXTENSION_MANAGER_UPDATE
    (Message.format Strings.EXTENSION_MANAGER_UPDATE_ERROR (joinedIds errorArray))
    none none

/-- Lines 153-157: the error summary of a failed removal batch. -/
def removeErrorDialog (errorArray : List ErrorObj) : Effect :=
  Effect.showModalDialog
    DefaultDialogs.DIALOG_ID_ERROR
    Strings.EXTENSION_MANAGER_REMOVE
    (Message.format Strings.EXTENSION_MANAGER_REMOVE_ERROR (joinedIds errorArray))
    none none

/-- Lines 117-143: `updateExtensions()` rejected with `errorArray`. -/
def onUpdateRejected (s : Scenario) (errorArray : List ErrorObj) : List Effect :=
  [Effect.dlgClose]
    ++ errorArray.flatMap (logUpdateError s.formatError)
    ++ [updateErrorDialog errorArray]
    ++ afterErrorDialog s.errorDialogClosed

/-- Lines 111-144: `removeMarkedExtensions()` resolved.  The callback starts the
update batch and does not return its promise, so nothing of the update batch reaches
the outer `.catch`. -/
def onRemoveResolved (s : Scenario) : List Effect :=
  Effect.updateExtensions ::
    (match s.updateExtensions with
     | BatchResult.resolved => [Effect.dlgClose, Effect.execute Commands.APP_RELOAD]
     | BatchResult.rejected errorArray => onUpdateRejected s errorArray)

/-- Lines 145-161: `removeMarkedExtensions()` rejected with `errorArray`. -/
def onRemoveRejected (s : Scenario) (errorArray : List ErrorObj) : List Effect :=
  [Effect.dlgClose, Effect.cleanupUpdates, removeErrorDialog errorArray]
    ++ afterErrorDialog s.errorDialogClosed

/-- Lines 110-161: what follows the call `removeMarkedExtensions()`, by how its
promise settles (`.then(...)` or `.catch(...)`). -/
def afterRemove (s : Scenario) : List Effect :=
  match s.removeMarkedExtensions with
  | BatchResult.resolved => onRemoveResolved s
  | BatchResult.rejected errorArray => onRemoveRejected s errorArray

/-- Lines 99-167: the `buttonClick` handler, registered with `.one`. -/
def onButtonClick (s : Scenario) (buttonId : ButtonId) : List Effect :=
  if buttonId = ButtonId.DIALOG_BTN_OK then
    [Effect.disableButtons,
     Effect.hideClose,
     Effect.showProcessing Strings.PROCESSING_EXTENSIONS,
     Effect.removeMarkedExtensions]
      ++ afterRemove s
  else
    [Effect.dlgClose, Effect.cleanupUpdates, Effect.unmarkAllForRemoval]

/-- The trace of collaborator calls of one `_performChanges()` in scenario `s`. -/
def _performChanges (s : Scenario) : List Effect :=
  let hasRemovedExtensions := s.hasExtensionsToRemove
  let hasUpdatedExtensions := s.hasExtensionsToUpdate
  if !hasRemovedExtensions && !hasUpdatedExtensions then
    []
  else
    confirmationPrompt (buttonLabel hasRemovedExtensions hasUpdatedExtensions)
      :: (match s.buttonClick with
          | none => []
          | some buttonId => onButtonClick s buttonId)

/-- How many times the trace executes `APP_RELOAD`. -/
def reloadCount (trace : List Effect) : Nat :=
  trace.count (Effect.execute Commands.APP_RELOAD)

/-- The same scenario, observed while the error summary dialog is still open. -/
def Scenario.errorDialogOpen (s : Scenario) : Scenario :=
  { s with errorDialogClosed := false }

/-- Whether an effect opens the confirmation prompt. -/
def Effect.isConfirmationPrompt : Effect → Bool
  | Effect.showModalDialog DefaultDialogs.DIALOG_ID_CHANGE_EXTENSIONS _ _ _ _ => true
  | _ => false

/-- Whether an effect opens an error summary dialog. -/
def Effect.isErrorDialog : Effect → Bool
  | Effect.showModalDialog DefaultDialogs.DIALOG_ID_ERROR _ _ _ _ => true
  | _ => false

/-! ## `_installUsingDragAndDrop`: classification of dropped paths (source lines 193-238) -/

/-- A file-system entry as handed to the `FileSystem.resolve` callback. -/
structure FileEntry where
  fullPath : String
  isFile : Bool
  deriving DecidableEq, Repr

/-- The arguments `FileSystem.resolve` passes to its callback, `(err, file)`; `none`
stands for an argument that is `null` or not supplied.  Error codes are non-empty
strings, so `some err` is truthy. -/
structure ResolveArgs where
  err : Option String
  file : Option FileEntry
  deriving DecidableEq, Repr

/-- The `metadata` of a validated package. -/
structure Metadata where
  name : String
  deriving DecidableEq, Repr

/-- The value `Package.validate` resolves with, `{metadata, errors}`. -/
structure ValidationInfo where
  errors : List String
  metadata : Metadata
  deriving DecidableEq, Repr

/-- How the promise of `Package.validate(path, ...)` settles. -/
inductive ValidateResult
  | resolved (info : ValidationInfo)
  | rejected (err : String)
  deriving DecidableEq, Repr

/-- The argument of `Package.formatError`: an error list or a single error. -/
inductive FormatErrorArg
  | errorList (errors : List String)
  | error (err : String)
  deriving DecidableEq, Repr

/-- An entry of `ExtensionManager.extensions`; `installInfo` records whether the
field of that name is truthy. -/
structure ExtensionInfo where
  installInfo : Bool
  deriving DecidableEq, Repr

/-- The collaborators of the drop classifier. -/
structure DropEnv where
  resolve : String → ResolveArgs
  getFileExtension : String → String
  getFileErrorString : String → String
  INVALID_ZIP_FILE : String
  validate : String → ValidateResult
  formatError : FormatErrorArg → String
  extensions : String → Option ExtensionInfo

/-- Collaborator calls recorded while classifying. -/
inductive DropCall
  | resolve (path : String)
  | validate (path : String) (requirePackageJSON : Bool)
  deriving DecidableEq, Repr

/-- The two local arrays of `_installUsingDragAndDrop`, and the calls made so far. -/
structure DropState where
  installZips : List FileEntry
  updateZips : List FileEntry
  calls : List DropCall
  deriving DecidableEq, Repr

/-- How the promise of one per-item operation ends: `innerResolve()`,
`innerReject(error)`, or never settled. -/
inductive Settled
  | resolved
  | rejected (error : String)
  | pending
  deriving DecidableEq, Repr

/-- Lines 216-235: `Package.validate(path, { requirePackageJSON: true })` and the
classification of `file` by the validated name. -/
def validateAndClassify (env : DropEnv) (path : String) (file : FileEntry)
    (st : DropState) : DropState × Settled :=
  let st := { st with calls := st.calls ++ [DropCall.validate path true] }
  match env.validate path with
  | ValidateResult.resolved info =>
      if info.errors.length ≠ 0 then
        (st, Settled.rejected (env.formatError (FormatErrorArg.errorList info.errors)))
      else
        let extensionName := info.metadata.name
        let extensionInfo := env.extensions extensionName
        let isUpdate :=
          match extensionInfo with
          | some extensionInfo => extensionInfo.installInfo
          | none => false
        if isUpdate then
          ({ st with updateZips := st.updateZips ++ [file] }, Settled.resolved)
        else
          ({ st with installZips := st.installZips ++ [file] }, Settled.resolved)
  | ValidateResult.rejected err =>
      (st, Settled.rejected (env.formatError (FormatErrorArg.error err)))

/-- Lines 195-237: the per-path operation, run on the state of the two arrays.

The callback of `FileSystem.resolve` reads `file.isFile` in its first statement,
before looking at `err`.  When no file entry is supplied that read throws a
`TypeError` inside the callback, which runs from the completion of the file-system
lookup, outside the promise executor; neither `innerResolve` nor `innerReject` is
ever called, and the promise stays pending. -/
def validateDroppedPath (env : DropEnv) (path : String) (st : DropState) :
    DropState × Settled :=
  let args := env.resolve path
  let st := { st with calls := st.calls ++ [DropCall.resolve path] }
  let extension := env.getFileExtension path
  match args.file with
  | none => (st, Settled.pending)
  | some file =>
      let isZip := file.isFile && decide (extension = "zip")
      let errStr : Option String :=
        match args.err with
        | some err => some (env.getFileErrorString err)
        | none => if !isZip then some env.INVALID_ZIP_FILE else none
      match errStr with
      | some e => if e ≠ "" then (st, Settled.rejected e) else validateAndClassify env path file st
      | none => validateAndClassify env path file st

/-- One `{item, error}` entry of an aggregated error list. -/
structure ErrorItem where
  item : String
  error : String
  deriving DecidableEq, Repr

/-- The run of a parallel batch over a state: the final state, the `{item, error}`
entries collected, and the items whose promise never settled. -/
structure ParallelRun (σ : Type) where
  state : σ
  errors : List ErrorItem
  pending : List String

/-- Modelled from the spec: `Async.doInParallel_aggregateErrors` (module
`utils/Async`, not among the source files).  Every item is processed, one item's
failure never aborts its siblings, and each failure is collected as `{item, error}`,
the list preserving input order.  Items are started in input order; the state is
threaded in that order. -/
def doInParallel_aggregateErrors {σ : Type} (items : List String)
    (beginProcessItem : String → σ → σ × Settled) (st : σ) : ParallelRun σ :=
  match items with
  | [] => { state := st, errors := [], pending := [] }
  | item :: rest =>
      let step := beginProcessItem item st
      let run := doInParallel_aggregateErrors rest beginProcessItem step.1
      match step.2 with
      | Settled.resolved => run
      | Settled.rejected error =>
          { run with errors := { item := item, error := error } :: run.errors }
      | Settled.pending => { run with pending := item :: run.pending }

/-- How an aggregated promise ends. -/
inductive PromiseState
  | resolved
  | rejected (errorArray : List ErrorItem)
  | pending
  deriving DecidableEq, Repr

/-- Modelled from the spec: the promise `Async.doInParallel_aggregateErrors`
returns.  It settles once every item has settled: resolved when no item failed,
rejected with the aggregated list otherwise. -/
def ParallelRun.promise {σ : Type} (run : ParallelRun σ) : PromiseState :=
  if run.pending ≠ [] then PromiseState.pending
  else if run.errors = [] then PromiseState.resolved
  else PromiseState.rejected run.errors

/-- Lines 180-238: `installZips = []`, `updateZips = []`, and the batch behind
`validatePromise` over the dropped paths. -/
def validatePromise (env : DropEnv) (paths : List String) : ParallelRun DropState :=
  doInParallel_aggregateErrors paths (validateDroppedPath env)
    { installZips := [], updateZips := [], calls := [] }

/-! ## `_installUsingDragAndDrop`: installs, then updates (source lines 176-261) -/

/-- How the promise of `InstallExtensionDialog.installUsingDialog(file)` or
`updateUsingDialog(file)` settles: resolved with a result, or rejected. -/
inductive DialogResult
  | resolved (result : String)
  | rejected (error : String)
  deriving DecidableEq, Repr

/-- The install-flow collaborator: how the dialog opened for a file ends. -/
structure DialogEnv where
  installUsingDialog : FileEntry → DialogResult
  updateUsingDialog : FileEntry → DialogResult

/-- The arguments `brackets.app.getDroppedFiles` passes to its callback,
`(err, paths)`; `some err` is a truthy error. -/
structure DroppedFiles where
  err : Option String
  paths : List String
  deriving DecidableEq, Repr

/-- What happens after classification, in program order: the dialog calls, the
settling of each dialog promise, the registry notifications, and the console. -/
inductive FlowEvent
  /-- The call `InstallExtensionDialog.installUsingDialog(file)`. -/
  | installUsingDialog (file : FileEntry)
  /-- The call `InstallExtensionDialog.updateUsingDialog(file)`. -/
  | updateUsingDialog (file : FileEntry)
  /-- The promise of the dialog opened for `file` settled; `resolved` tells how. -/
  | dialogSettled (file : FileEntry) (resolved : Bool)
  /-- The call `ExtensionManager.updateFromDownload(result)`. -/
  | updateFromDownload (result : String)
  /-- The call `console.error(err)`. -/
  | consoleError (err : String)
  deriving DecidableEq, Repr

/-- The run of one operation or of a sequential batch: the events it produced, and
whether its promise resolved (`true`) or was rejected (`false`). -/
structure SequentialRun where
  events : List FlowEvent
  resolved : Bool
  deriving DecidableEq, Repr

/-- Modelled from the spec: `Async.doSequentially(items, beginProcessItem)` (module
`utils/Async`, not among the source files), called without a short-circuit policy.
Operation `i + 1` does not start until the promise of operation `i` has settled; a
failed item does not stop the batch, which continues through the full set; the batch
promise is resolved when no item failed and rejected otherwise (a batch-level
failure is what the rejection handler of line 255 receives). -/
def doSequentially (items : List FileEntry) (beginProcessItem : FileEntry → SequentialRun) :
    SequentialRun :=
  match items with
  | [] => { events := [], resolved := true }
  | item :: rest =>
      let step := beginProcessItem item
      let run := doSequentially rest beginProcessItem
      { events := step.events ++ run.events, resolved := step.resolved && run.resolved }

/-- Lines 241-243, the operation of the install batch:
`InstallExtensionDialog.installUsingDialog(file)`. -/
def installOperation (dialogs : DialogEnv) (file : FileEntry) : SequentialRun :=
  match dialogs.installUsingDialog file with
  | DialogResult.resolved _ =>
      { events := [FlowEvent.installUsingDialog file, FlowEvent.dialogSettled file true],
        resolved := true }
  | DialogResult.rejected _ =>
      { events := [FlowEvent.installUsingDialog file, FlowEvent.dialogSettled file false],
        resolved := false }

/-- Lines 246-250, the operation of the update batch:
`InstallExtensionDialog.updateUsingDialog(file).then(function (result) { ... })`, whose
callback calls `ExtensionManager.updateFromDownload(result)`. -/
def updateOperation (dialogs : DialogEnv) (file : FileEntry) : SequentialRun :=
  match dialogs.updateUsingDialog file with
  | DialogResult.resolved result =>
      { events := [FlowEvent.updateUsingDialog file, FlowEvent.dialogSettled file true,
          FlowEvent.updateFromDownload result],
        resolved := true }
  | DialogResult.rejected _ =>
      { events := [FlowEvent.updateUsingDialog file, FlowEvent.dialogSettled file false],
        resolved := false }

/-- Lines 245-251: `updatePromise = installPromise.then(function () { ... })`.  The
call passes a fulfilment callback only, so the update batch starts when
`installPromise` is resolved; when `installPromise` is rejected the callback does not
run and `updatePromise` is rejected with it. -/
def updatePromise (dialogs : DialogEnv) (installPromise : SequentialRun)
    (updateZips : List FileEntry) : SequentialRun :=
  if installPromise.resolved then
    doSequentially updateZips (updateOperation dialogs)
  else
    { events := [], resolved := false }

/-- The run of `_installUsingDragAndDrop`: how the returned promise ends, the two
buckets with the classification calls, and the events after classification. -/
structure DragAndDropRun where
  promise : PromiseState
  state : DropState
  events : List FlowEvent
  deriving DecidableEq, Repr

/-- Lines 176-261.  Line 255, `updatePromise.then(resolve, resolve)`, resolves the
returned promise however `updatePromise` settles; line 256 rejects it with the
aggregated list when `validatePromise` is rejected; while `validatePromise` is
pending neither handler runs. -/
def _installUsingDragAndDrop (env : DropEnv) (dialogs : DialogEnv) (dropped : DroppedFiles) :
    DragAndDropRun :=
  match dropped.err with
  | some err =>
      { promise := PromiseState.resolved,
        state := { installZips := [], updateZips := [], calls := [] },
        events := [FlowEvent.consoleError err] }
  | none =>
      let validation := validatePromise env dropped.paths
      match validation.promise with
      | PromiseState.resolved =>
          let installPromise :=
            doSequentially validation.state.installZips (installOperation dialogs)
          let updates := updatePromise dialogs installPromise validation.state.updateZips
          { promise := PromiseState.resolved,
            state := validation.state,
            events := installPromise.events ++ updates.events }
      | PromiseState.rejected errorArray =>
          { promise := PromiseState.rejected errorArray,
            state := validation.state,
            events := [] }
      | PromiseState.pending =>
          { promise := PromiseState.pending,
            state := validation.state,
            events := [] }

/-- The files for which `installUsingDialog` was called, in call order. -/
def installCalls (events : List FlowEvent) : List FileEntry :=
  events.filterMap (fun event =>
    match event with
    | FlowEvent.installUsingDialog file => some file
    | _ => none)

/-- The files for which `updateUsingDialog` was called, in call order. -/
def updateCalls (events : List FlowEvent) : List FileEntry :=
  events.filterMap (fun event =>
    match event with
    | FlowEvent.updateUsingDialog file => some file
    | _ => none)

/-- Whether the install dialog opened for `file` ends in success. -/
def installSucceeds (dialogs : DialogEnv) (file : FileEntry) : Bool :=
  match dialogs.installUsingDialog file with
  | DialogResult.resolved _ => true
  | DialogResult.rejected _ => false

/-- The events of installing the files one at a time, in list order: for each file
the dialog call, then the settling of its promise. -/
def installEvents (dialogs : DialogEnv) (files : List FileEntry) : List FlowEvent :=
  files.flatMap (fun file =>
    [FlowEvent.installUsingDialog file,
     FlowEvent.dialogSettled file (installSucceeds dialogs file)])

/-- The events of updating the files one at a time, in list order: for each file the
dialog call, the settling of its promise, and after a success the notification
`updateFromDownload(result)`. -/
def updateEvents (dialogs : DialogEnv) (files : List FileEntry) : List FlowEvent :=
  files.flatMap (fun file =>
    match dialogs.updateUsingDialog file with
    | DialogResult.resolved result =>
        [FlowEvent.updateUsingDialog file, FlowEvent.dialogSettled file true,
         FlowEvent.updateFromDownload result]
    | DialogResult.rejected _ =>
        [FlowEvent.updateUsingDialog file, FlowEvent.dialogSettled file false])

/-! ## Tab cycling: the `keyup.extensionManager` handler (source lines 329-342) -/

/-- The remainder operator of JavaScript on integers: the result takes the sign of
the dividend; `none` stands for `NaN` (zero divisor). -/
def jsRem (a b : Int) : Option Int :=
  if b = 0 then none else some (a.tmod b)

/-- The method `.eq(index)` of a jQuery set of `length` elements (jQuery is a
third-party library, not among the source files), by its documented behaviour, as the
position it selects: `j = +i + (i < 0 ? len : 0)`, so a negative index counts from the
end of the set; `none` is the empty set, when `j` falls outside `[0, len)`. -/
def jQuery_eq (length : Nat) (index : Int) : Option Nat :=
  let j := index + (if index < 0 then (length : Int) else 0)
  if 0 ≤ j ∧ j < (length : Int) then some j.toNat else none

/-- The fields of a key event the handler reads. -/
structure KeyboardEvent where
  keyCode : Nat
  ctrlKey : Bool
  shiftKey : Bool
  deriving DecidableEq, Repr

/-- The constant `KeyEvent.DOM_VK_TAB`. -/
def DOM_VK_TAB : Nat := 9

/-- The view models of the dialog, one per tab. -/
inductive ViewModel
  | RegistryViewModel
  | ThemesViewModel
  | InstalledViewModel
  deriving DecidableEq, Repr

/-- Lines 274-282: the array `models` that `_showDialog` builds: the registry and
themes models only when a registry URL is configured, the installed model always. -/
def models (showRegistry : Bool) : List ViewModel :=
  (if showRegistry then [ViewModel.RegistryViewModel, ViewModel.ThemesViewModel] else [])
    ++ [ViewModel.InstalledViewModel]

/-- What a run of the handler leaves behind: the value of `_activeTabIndex`, and
whether a `TypeError` escaped (a property access on `models[k]` with no model at
position `k`), which ends the run at that point. -/
structure TabRun where
  _activeTabIndex : Nat
  threw : Bool
  deriving DecidableEq, Repr

/-- Lines 284-293, `updateSearchDisabled()`, as whether it throws: with the search
field empty the expression reads `model.filterSet` of `model = models[_activeTabIndex]`,
which throws when there is no model at that position; with text in the field the
`&&` stops before that read. -/
def updateSearchDisabledThrows (models : List ViewModel) (_activeTabIndex : Nat)
    (searchIsEmpty : Bool) : Bool :=
  searchIsEmpty && !decide (_activeTabIndex < models.length)

/-- Lines 317-318, the end of `setActiveTab`: `models[_activeTabIndex].scrollPos` is
read to restore the scroll offset, then `$searchClear.click()` empties the search
field and its handler (lines 404-413) calls `updateSearchDisabled()`. -/
def restoreScrollAndClearSearch (models : List ViewModel) (_activeTabIndex : Nat) : TabRun :=
  if ¬ _activeTabIndex < models.length then
    { _activeTabIndex := _activeTabIndex, threw := true }
  else if updateSearchDisabledThrows models _activeTabIndex true then
    { _activeTabIndex := _activeTabIndex, threw := true }
  else
    { _activeTabIndex := _activeTabIndex, threw := false }

/-- Lines 314-319, `setActiveTab($tab)`, with `$tab` given as the position it holds in
the tab set (`none`: the empty set).

Line 315 writes `models[_activeTabIndex].scrollPos` first and throws when there is no
model at the current index.  Then `$tab.tab("show")` fires the `show` handler of that
tab (lines 388-395), which stores the position in `_activeTabIndex` and calls
`updateSearchDisabled()`; on an empty set nothing is shown.  The tabs `.nav-tabs a`
are taken to be the `a[data-toggle='tab']` elements in the same order, so the
position stored is the position selected.  (When the tab is the one already shown,
the tab component returns without firing `show`; the index and the models read are
the same either way.) -/
def setActiveTab (models : List ViewModel) (searchIsEmpty : Bool) (_activeTabIndex : Nat)
    (tab : Option Nat) : TabRun :=
  if ¬ _activeTabIndex < models.length then
    { _activeTabIndex := _activeTabIndex, threw := true }
  else
    match tab with
    | none => restoreScrollAndClearSearch models _activeTabIndex
    | some index =>
        if updateSearchDisabledThrows models index searchIsEmpty then
          { _activeTabIndex := index, threw := true }
        else
          restoreScrollAndClearSearch models index

/-- Lines 331-340: the set `$tabs.eq(tabIndex)` handed to `setActiveTab`, as the
position it selects among `tabsLength` tabs; `tabIndex` is `_activeTabIndex` moved by
one and reduced with `%=`. -/
def targetTab (tabsLength : Nat) (_activeTabIndex : Nat) (shiftKey : Bool) : Option Nat :=
  let tabIndex : Int := (_activeTabIndex : Int)
  let tabIndex := if shiftKey then tabIndex - 1 else tabIndex + 1
  match jsRem tabIndex (tabsLength : Int) with
  | none => none
  | some tabIndex => jQuery_eq tabsLength tabIndex

/-- Lines 329-342, the `keyup.extensionManager` handler, run with `tabsLength` tabs in
the dialog, the array `models`, the search field empty or not, and the current
`_activeTabIndex`. -/
def keyupHandler (tabsLength : Nat) (models : List ViewModel) (searchIsEmpty : Bool)
    (_activeTabIndex : Nat) (event : KeyboardEvent) : TabRun :=
  if event.keyCode = DOM_VK_TAB ∧ event.ctrlKey = true then
    setActiveTab models searchIsEmpty _activeTabIndex
      (targetTab tabsLength _activeTabIndex event.shiftKey)
  else
    { _activeTabIndex := _activeTabIndex, threw := false }

/-! ## Concrete scenarios -/

/-- One extension marked for removal, Confirm clicked, the removal of `"ext.a"` and
`"ext.b"` fails, the error summary has been dismissed. -/
def removalFailsScenario : Scenario :=
  { hasExtensionsToRemove := true,
    hasExtensionsToUpdate := false,
    buttonClick := some ButtonId.DIALOG_BTN_OK,
    removeMarkedExtensions :=
      BatchResult.rejected
        [{ item := "ext.a", error := ErrorValue.other "EPERM" },
         { item := "ext.b", error := ErrorValue.undefined }],
    updateExtensions := BatchResult.resolved,
    errorDialogClosed := true,
    formatError := fun e => e }

/-- Removals and updates marked, Confirm clicked, removals succeed, the update of
`"ext.c"` fails with two package errors, the error summary has been dismissed. -/
def updateFailsScenario : Scenario :=
  { hasExtensionsToRemove := true,
    hasExtensionsToUpdate := true,
    buttonClick := some ButtonId.DIALOG_BTN_OK,
    removeMarkedExtensions := BatchResult.resolved,
    updateExtensions :=
      BatchResult.rejected
        [{ item := "ext.c", error := ErrorValue.array ["BAD_VERSION", "MISSING_MAIN"] }],
    errorDialogClosed := true,
    formatError := fun e => e }

/-- Nothing marked: both flags false. -/
def nothingMarkedScenario : Scenario :=
  { hasExtensionsToRemove := false,
    hasExtensionsToUpdate := false,
    buttonClick := some ButtonId.DIALOG_BTN_OK,
    removeMarkedExtensions := BatchResult.resolved,
    updateExtensions := BatchResult.resolved,
    errorDialogClosed := true,
    formatError := fun e => e }

/-- Updates marked, and the prompt dismissed with Cancel. -/
def cancelScenario : Scenario :=
  { hasExtensionsToRemove := false,
    hasExtensionsToUpdate := true,
    buttonClick := some ButtonId.DIALOG_BTN_CANCEL,
    removeMarkedExtensions := BatchResult.resolved,
    updateExtensions := BatchResult.resolved,
    errorDialogClosed := true,
    formatError := fun e => e }

/-- A drop environment: `"foo"` is installed and `"bar"` is not; `/drop/foo.zip` and
`/drop/bar.zip` are valid archives of those names; `/drop/notes.txt` is a text file;
`/drop/missing.zip` does not exist, so `FileSystem.resolve` reports `"NotFound"` and
supplies no file entry; `/drop/broken.zip` is an archive without a package
descriptor. -/
def sampleDropEnv : DropEnv :=
  { resolve := fun path =>
      if path = "/drop/missing.zip" then { err := some "NotFound", file := none }
      else { err := none, file := some { fullPath := path, isFile := true } },
    getFileExtension := fun path => if path = "/drop/notes.txt" then "txt" else "zip",
    getFileErrorString := fun err => if err = "NotFound" then "The file could not be found." else err,
    INVALID_ZIP_FILE := "The downloaded content is not a valid zip file.",
    validate := fun path =>
      if path = "/drop/foo.zip" then
        ValidateResult.resolved { errors := [], metadata := { name := "foo" } }
      else if path = "/drop/bar.zip" then
        ValidateResult.resolved { errors := [], metadata := { name := "bar" } }
      else
        ValidateResult.resolved { errors := ["MISSING_PACKAGE_JSON"], metadata := { name := "" } },
    formatError := fun _ => "Missing package.json",
    extensions := fun name => if name = "foo" then some { installInfo := true } else none }

/-- Dialogs in which every install and every update succeeds; an update resolves with
the path of its archive. -/
def succeedingDialogs : DialogEnv :=
  { installUsingDialog := fun file => DialogResult.resolved file.fullPath,
    updateUsingDialog := fun file => DialogResult.resolved file.fullPath }

/-- Dialogs in which every install is cancelled and every update would succeed. -/
def cancelledInstallDialogs : DialogEnv :=
  { installUsingDialog := fun _ => DialogResult.rejected "CANCELED",
    updateUsingDialog := fun file => DialogResult.resolved file.fullPath }

end ExtensionManagerDialog

/-! ## Theorems about `_performChanges` -/

namespace ExtensionManagerDialog

/-- Logging an update failure only writes to the console. -/
theorem mem_logUpdateError_isConsole (formatError : String → String) (errorObj : ErrorObj)
    (e : Effect) (he : e ∈ logUpdateError formatError errorObj) :
    ∃ args, e = Effect.consoleError args := by
  unfold logUpdateError at he
  split at he
  · rcases List.mem_cons.mp he with h | h
    · exact ⟨_, h⟩
    · obtain ⟨x, -, hx⟩ := List.mem_map.mp h
      exact ⟨_, hx.symm⟩
  · exact ⟨_, List.mem_singleton.mp he⟩

/-- The console part of the update failure handler executes no reload. -/
theorem reloadCount_logUpdateErrors (formatError : String → String)
    (errorArray : List ErrorObj) :
    reloadCount (errorArray.flatMap (logUpdateError formatError)) = 0 := by
  unfold reloadCount
  rw [List.count_eq_zero]
  intro hmem
  obtain ⟨errorObj, -, he⟩ := List.mem_flatMap.mp hmem
  obtain ⟨args, hargs⟩ := mem_logUpdateError_isConsole formatError errorObj _ he
  cases hargs

/-- The last element of a list with a non-empty tail is the last of the tail. -/
theorem getLast?_cons_of_ne_nil {α : Type} (a : α) (l : List α) (h : l ≠ []) :
    (a :: l).getLast? = l.getLast? := by
  cases l with
  | nil => exact absurd rfl h
  | cons b t => exact List.getLast?_cons_cons

/-- The reload count of a concatenation. -/
theorem reloadCount_append (t₁ t₂ : List Effect) :
    reloadCount (t₁ ++ t₂) = reloadCount t₁ + reloadCount t₂ := by
  unfold reloadCount
  exact List.count_append _ _ _

/-- The trace once the prompt is shown and Confirm is clicked. -/
theorem performChanges_confirm (s : Scenario)
    (hprompt : s.hasExtensionsToRemove = true ∨ s.hasExtensionsToUpdate = true)
    (hok : s.buttonClick = some ButtonId.DIALOG_BTN_OK) :
    _performChanges s =
      [confirmationPrompt (buttonLabel s.hasExtensionsToRemove s.hasExtensionsToUpdate),
       Effect.disableButtons, Effect.hideClose,
       Effect.showProcessing Strings.PROCESSING_EXTENSIONS,
       Effect.removeMarkedExtensions]
        ++ afterRemove s := by
  unfold _performChanges
  rcases hprompt with h | h <;> simp [h, hok, onButtonClick]

/-- The update failure handler while the error summary dialog is open: no reload
yet, the dialog is the last thing that happened, and dismissal appends the callback. -/
theorem onUpdateRejected_open (s : Scenario) (errorArray : List ErrorObj) :
    reloadCount (onUpdateRejected s.errorDialogOpen errorArray) = 0 ∧
    (onUpdateRejected s.errorDialogOpen errorArray).getLast? =
      some (updateErrorDialog errorArray) ∧
    onUpdateRejected s errorArray =
      onUpdateRejected s.errorDialogOpen errorArray ++ afterErrorDialog s.errorDialogClosed := by
  refine ⟨?_, ?_, ?_⟩
  · simp only [onUpdateRejected, Scenario.errorDialogOpen, afterErrorDialog, reloadCount_append,
      reloadCount_logUpdateErrors]
    simp [reloadCount, updateErrorDialog]
  · simp only [onUpdateRejected, Scenario.errorDialogOpen, afterErrorDialog]
    rw [if_neg (by decide), List.append_nil, List.getLast?_append_of_ne_nil _ (by simp)]
    rfl
  · simp [onUpdateRejected, Scenario.errorDialogOpen, afterErrorDialog]

/-- The removal failure handler while the error summary dialog is open. -/
theorem onRemoveRejected_open (s : Scenario) (errorArray : List ErrorObj) :
    reloadCount (onRemoveRejected s.errorDialogOpen errorArray) = 0 ∧
    (onRemoveRejected s.errorDialogOpen errorArray).getLast? =
      some (removeErrorDialog errorArray) ∧
    onRemoveRejected s errorArray =
      onRemoveRejected s.errorDialogOpen errorArray ++ afterErrorDialog s.errorDialogClosed := by
  refine ⟨?_, ?_, ?_⟩
  · simp [onRemoveRejected, Scenario.errorDialogOpen, afterErrorDialog, reloadCount,
      removeErrorDialog]
  · simp [onRemoveRejected, Scenario.errorDialogOpen, afterErrorDialog]
  · simp [onRemoveRejected, Scenario.errorDialogOpen, afterErrorDialog]

/-- When a batch fails: no reload while the error summary is open, the summary is the
last effect, and its dismissal appends the callback. -/
theorem afterRemove_failure (s : Scenario)
    (hfail : s.removeMarkedExtensions ≠ BatchResult.resolved ∨
        s.updateExtensions ≠ BatchResult.resolved) :
    reloadCount (afterRemove s.errorDialogOpen) = 0 ∧
    (∃ e, (afterRemove s.errorDialogOpen).getLast? = some e ∧ e.isErrorDialog = true) ∧
    afterRemove s = afterRemove s.errorDialogOpen ++ afterErrorDialog s.errorDialogClosed := by
  have hrem : s.errorDialogOpen.removeMarkedExtensions = s.removeMarkedExtensions := rfl
  have hupd : s.errorDialogOpen.updateExtensions = s.updateExtensions := rfl
  unfold afterRemove
  rw [hrem]
  cases hr : s.removeMarkedExtensions with
  | rejected errorArray =>
      obtain ⟨h0, hlast, happ⟩ := onRemoveRejected_open s errorArray
      exact ⟨h0, ⟨_, hlast, rfl⟩, happ⟩
  | resolved =>
      have hu : s.updateExtensions ≠ BatchResult.resolved := by
        rcases hfail with h | h
        · exact absurd hr h
        · exact h
      cases hupdate : s.updateExtensions with
      | resolved => exact absurd hupdate hu
      | rejected errorArray =>
          obtain ⟨h0, hlast, happ⟩ := onUpdateRejected_open s errorArray
          simp only [onRemoveResolved, hupd, hupdate]
          refine ⟨?_, ⟨updateErrorDialog errorArray, ?_, rfl⟩, ?_⟩
          · have : reloadCount (Effect.updateExtensions ::
                onUpdateRejected s.errorDialogOpen errorArray) =
                reloadCount ([Effect.updateExtensions] ++
                  onUpdateRejected s.errorDialogOpen errorArray) := rfl
            rw [this, reloadCount_append, h0]
            simp [reloadCount]
          · have hne : onUpdateRejected s.errorDialogOpen errorArray ≠ [] := by
              intro h
              rw [h] at hlast
              simp at hlast
            rw [getLast?_cons_of_ne_nil _ _ hne]
            exact hlast
          · rw [happ]
            simp

/-- C1: once the prompt is up and the user chooses Confirm, `APP_RELOAD` is executed
exactly once for every outcome of the two batches.  (a) Both batches succeed: one
reload, whatever else happens.  (b) removals succeed, updates fail, and (c) removals
fail: while the error summary dialog is open the trace ends with that dialog and holds
no reload; once the dialog is dismissed the trace is that same trace followed by the
single reload.  No outcome yields zero or two reloads. -/
theorem performChanges_confirm_reloads_once (s : Scenario)
    (hprompt : s.hasExtensionsToRemove = true ∨ s.hasExtensionsToUpdate = true)
    (hok : s.buttonClick = some ButtonId.DIALOG_BTN_OK) :
    (s.removeMarkedExtensions = BatchResult.resolved →
      s.updateExtensions = BatchResult.resolved →
        reloadCount (_performChanges s) = 1) ∧
    ((s.removeMarkedExtensions ≠ BatchResult.resolved ∨
        s.updateExtensions ≠ BatchResult.resolved) →
      reloadCount (_performChanges s.errorDialogOpen) = 0 ∧
      (∃ e, (_performChanges s.errorDialogOpen).getLast? = some e ∧
        e.isErrorDialog = true) ∧
      (s.errorDialogClosed = true →
        _performChanges s =
          _performChanges s.errorDialogOpen ++ [Effect.execute Commands.APP_RELOAD] ∧
        reloadCount (_performChanges s) = 1)) := by
  have hopen : s.errorDialogOpen.hasExtensionsToRemove = true ∨
      s.errorDialogOpen.hasExtensionsToUpdate = true := hprompt
  have hokOpen : s.errorDialogOpen.buttonClick = some ButtonId.DIALOG_BTN_OK := hok
  rw [performChanges_confirm s hprompt hok,
    performChanges_confirm s.errorDialogOpen hopen hokOpen]
  have hflags : buttonLabel s.errorDialogOpen.hasExtensionsToRemove
      s.errorDialogOpen.hasExtensionsToUpdate =
      buttonLabel s.hasExtensionsToRemove s.hasExtensionsToUpdate := rfl
  rw [hflags]
  have hhead : reloadCount
      [confirmationPrompt (buttonLabel s.hasExtensionsToRemove s.hasExtensionsToUpdate),
       Effect.disableButtons, Effect.hideClose,
       Effect.showProcessing Strings.PROCESSING_EXTENSIONS,
       Effect.removeMarkedExtensions] = 0 := by
    simp [reloadCount, confirmationPrompt]
  constructor
  · intro h₁ h₂
    rw [reloadCount_append, hhead]
    simp [afterRemove, h₁, onRemoveResolved, h₂, reloadCount]
  · intro hfail
    obtain ⟨h0, ⟨e, hlast, hdlg⟩, happ⟩ := afterRemove_failure s hfail
    refine ⟨?_, ⟨e, ?_, hdlg⟩, ?_⟩
    · rw [reloadCount_append, hhead, h0]
    · have hne : afterRemove s.errorDialogOpen ≠ [] := by
        intro h
        rw [h] at hlast
        simp at hlast
      rw [List.getLast?_append_of_ne_nil _ hne]
      exact hlast
    · intro hclosed
      rw [happ, hclosed]
      refine ⟨by simp [afterErrorDialog], ?_⟩
      rw [reloadCount_append, reloadCount_append, hhead, h0]
      simp [afterErrorDialog, reloadCount]

/-- Witness of C1 on the scenario where the update batch fails: the hypotheses hold,
no reload while the error summary is open, exactly one after its dismissal. -/
theorem performChanges_confirm_reloads_once_witness :
    updateFailsScenario.buttonClick = some ButtonId.DIALOG_BTN_OK ∧
    reloadCount (_performChanges updateFailsScenario.errorDialogOpen) = 0 ∧
    reloadCount (_performChanges updateFailsScenario) = 1 :=
  have h := (performChanges_confirm_reloads_once updateFailsScenario (Or.inl rfl) rfl).2
    (Or.inr (by decide))
  ⟨rfl, h.1, (h.2.2 rfl).2⟩

/-- C2: when `hasExtensionsToRemove()` and `hasExtensionsToUpdate()` are both false,
`_performChanges` returns having made no collaborator call at all: no confirmation
dialog, no `removeMarkedExtensions`, `updateExtensions`, `cleanupUpdates` or
`unmarkAllForRemoval`, and no `APP_RELOAD`. -/
theorem performChanges_nothing_marked (s : Scenario)
    (hremove : s.hasExtensionsToRemove = false)
    (hupdate : s.hasExtensionsToUpdate = false) :
    _performChanges s = [] ∧
    (∀ e ∈ _performChanges s, e.isConfirmationPrompt = false) ∧
    Effect.removeMarkedExtensions ∉ _performChanges s ∧
    Effect.updateExtensions ∉ _performChanges s ∧
    Effect.cleanupUpdates ∉ _performChanges s ∧
    Effect.unmarkAllForRemoval ∉ _performChanges s ∧
    reloadCount (_performChanges s) = 0 := by
  have h : _performChanges s = [] := by
    simp [_performChanges, hremove, hupdate]
  rw [h]
  simp [reloadCount]

/-- Witness of C2 on the scenario with nothing marked, even with a click pending. -/
theorem performChanges_nothing_marked_witness :
    nothingMarkedScenario.hasExtensionsToRemove = false ∧
    nothingMarkedScenario.hasExtensionsToUpdate = false ∧
    _performChanges nothingMarkedScenario = [] :=
  ⟨rfl, rfl, (performChanges_nothing_marked nothingMarkedScenario rfl rfl).1⟩

/-- Nothing the click handler does opens a second confirmation prompt. -/
theorem onButtonClick_no_prompt (s : Scenario) (buttonId : ButtonId) :
    ∀ e ∈ onButtonClick s buttonId, e.isConfirmationPrompt = false := by
  have hlog : ∀ errorArray : List ErrorObj,
      ∀ e ∈ errorArray.flatMap (logUpdateError s.formatError),
        e.isConfirmationPrompt = false := by
    intro errorArray e he
    obtain ⟨errorObj, -, hmem⟩ := List.mem_flatMap.mp he
    obtain ⟨args, hargs⟩ := mem_logUpdateError_isConsole _ _ _ hmem
    rw [hargs]
    rfl
  have hafter : ∀ e ∈ afterErrorDialog s.errorDialogClosed,
      e.isConfirmationPrompt = false := by
    intro e he
    unfold afterErrorDialog at he
    split at he
    · rw [List.mem_singleton.mp he]
      rfl
    · exact absurd he (List.not_mem_nil _)
  have hupd : ∀ errorArray : List ErrorObj, ∀ e ∈ onUpdateRejected s errorArray,
      e.isConfirmationPrompt = false := by
    intro errorArray e he
    unfold onUpdateRejected at he
    rcases List.mem_append.mp he with h | h
    · rcases List.mem_append.mp h with h | h
      · rcases List.mem_append.mp h with h | h
        · rw [List.mem_singleton.mp h]
          rfl
        · exact hlog errorArray e h
      · rw [List.mem_singleton.mp h]
        rfl
    · exact hafter e h
  have hrem : ∀ e ∈ afterRemove s, e.isConfirmationPrompt = false := by
    intro e he
    unfold afterRemove at he
    split at he
    · unfold onRemoveResolved at he
      rcases List.mem_cons.mp he with h | h
      · rw [h]
        rfl
      · split at h
        · simp only [List.mem_cons, List.mem_singleton, List.not_mem_nil, or_false] at h
          rcases h with h | h <;> rw [h] <;> rfl
        · exact hupd _ e h
    · unfold onRemoveRejected at he
      rcases List.mem_append.mp he with h | h
      · simp only [List.mem_cons, List.mem_singleton, List.not_mem_nil, or_false] at h
        rcases h with h | h | h <;> rw [h] <;> rfl
      · exact hafter e h
  intro e he
  unfold onButtonClick at he
  split at he
  · rcases List.mem_append.mp he with h | h
    · simp only [List.mem_cons, List.mem_singleton, List.not_mem_nil, or_false] at h
      rcases h with h | h | h | h <;> rw [h] <;> rfl
    · exact hrem e h
  · simp only [List.mem_cons, List.mem_singleton, List.not_mem_nil, or_false] at he
    rcases he with h | h | h <;> rw [h] <;> rfl

/-- C3: the confirmation prompt is shown if and only if at least one flag is true, and
it is then the first effect and the only prompt.  It is the `DIALOG_ID_CHANGE_EXTENSIONS`
dialog with two buttons, a normal `DIALOG_BTN_CANCEL` button with text `CANCEL` and the
primary `DIALOG_BTN_OK` button, and the text of that primary button is a total
function of the two flags: removals only gives `REMOVE_AND_RELOAD`, updates only
`UPDATE_AND_RELOAD`, both `CHANGE_AND_RELOAD`. -/
theorem performChanges_prompt_label (s : Scenario) :
    ((∃ e ∈ _performChanges s, e.isConfirmationPrompt = true) ↔
      (s.hasExtensionsToRemove = true ∨ s.hasExtensionsToUpdate = true)) ∧
    (s.hasExtensionsToRemove = true → s.hasExtensionsToUpdate = false →
      (_performChanges s).head? = some
        (Effect.showModalDialog
          DefaultDialogs.DIALOG_ID_CHANGE_EXTENSIONS
          Strings.CHANGE_AND_RELOAD_TITLE
          (Message.text Strings.CHANGE_AND_RELOAD_MESSAGE)
          (some [
            { className := ButtonClass.DIALOG_BTN_CLASS_NORMAL,
              id := ButtonId.DIALOG_BTN_CANCEL,
              text := Strings.CANCEL },
            { className := ButtonClass.DIALOG_BTN_CLASS_PRIMARY,
              id := ButtonId.DIALOG_BTN_OK,
              text := Strings.REMOVE_AND_RELOAD }])
          (some false))) ∧
    (s.hasExtensionsToRemove = false → s.hasExtensionsToUpdate = true →
      (_performChanges s).head? = some
        (Effect.showModalDialog
          DefaultDialogs.DIALOG_ID_CHANGE_EXTENSIONS
          Strings.CHANGE_AND_RELOAD_TITLE
          (Message.text Strings.CHANGE_AND_RELOAD_MESSAGE)
          (some [
            { className := ButtonClass.DIALOG_BTN_CLASS_NORMAL,
              id := ButtonId.DIALOG_BTN_CANCEL,
              text := Strings.CANCEL },
            { className := ButtonClass.DIALOG_BTN_CLASS_PRIMARY,
              id := ButtonId.DIALOG_BTN_OK,
              text := Strings.UPDATE_AND_RELOAD }])
          (some false))) ∧
    (s.hasExtensionsToRemove = true → s.hasExtensionsToUpdate = true →
      (_performChanges s).head? = some
        (Effect.showModalDialog
          DefaultDialogs.DIALOG_ID_CHANGE_EXTENSIONS
          Strings.CHANGE_AND_RELOAD_TITLE
          (Message.text Strings.CHANGE_AND_RELOAD_MESSAGE)
          (some [
            { className := ButtonClass.DIALOG_BTN_CLASS_NORMAL,
              id := ButtonId.DIALOG_BTN_CANCEL,
              text := Strings.CANCEL },
            { className := ButtonClass.DIALOG_BTN_CLASS_PRIMARY,
              id := ButtonId.DIALOG_BTN_OK,
              text := Strings.CHANGE_AND_RELOAD }])
          (some false))) ∧
    (∀ e ∈ _performChanges s, e.isConfirmationPrompt = true →
      e = confirmationPrompt (buttonLabel s.hasExtensionsToRemove s.hasExtensionsToUpdate) ∧
      (_performChanges s).head? = some e) := by
  have hrest : ∀ e ∈ (match s.buttonClick with
      | none => []
      | some buttonId => onButtonClick s buttonId), e.isConfirmationPrompt = false := by
    intro e he
    split at he
    · exact absurd he (List.not_mem_nil _)
    · exact onButtonClick_no_prompt s _ e he
  have hshape : (s.hasExtensionsToRemove = true ∨ s.hasExtensionsToUpdate = true) →
      _performChanges s =
        confirmationPrompt (buttonLabel s.hasExtensionsToRemove s.hasExtensionsToUpdate)
          :: (match s.buttonClick with
              | none => []
              | some buttonId => onButtonClick s buttonId) := by
    intro h
    unfold _performChanges
    rcases h with h | h <;> simp [h]
  have hnone : s.hasExtensionsToRemove = false → s.hasExtensionsToUpdate = false →
      _performChanges s = [] := by
    intro h₁ h₂
    simp [_performChanges, h₁, h₂]
  refine ⟨⟨?_, ?_⟩, ?_, ?_, ?_, ?_⟩
  · rintro ⟨e, he, hp⟩
    by_contra hflags
    simp only [not_or, Bool.not_eq_true] at hflags
    rw [hnone hflags.1 hflags.2] at he
    exact absurd he (List.not_mem_nil _)
  · intro h
    rw [hshape h]
    exact ⟨_, List.mem_cons_self _ _, rfl⟩
  · intro h₁ h₂
    rw [hshape (Or.inl h₁), h₁, h₂]
    rfl
  · intro h₁ h₂
    rw [hshape (Or.inr h₂), h₁, h₂]
    rfl
  · intro h₁ h₂
    rw [hshape (Or.inl h₁), h₁, h₂]
    rfl
  · intro e he hp
    have hflags : s.hasExtensionsToRemove = true ∨ s.hasExtensionsToUpdate = true := by
      by_contra hflags
      simp only [not_or, Bool.not_eq_true] at hflags
      rw [hnone hflags.1 hflags.2] at he
      exact absurd he (List.not_mem_nil _)
    rw [hshape hflags] at he ⊢
    rcases List.mem_cons.mp he with h | h
    · exact ⟨h, by rw [h]; rfl⟩
    · rw [hrest e h] at hp
      exact absurd hp (by decide)

/-- Witness of C3 on the scenario where only updates are marked: the primary button
reads `UPDATE_AND_RELOAD`. -/
theorem performChanges_prompt_label_witness :
    cancelScenario.hasExtensionsToRemove = false ∧
    cancelScenario.hasExtensionsToUpdate = true ∧
    (_performChanges cancelScenario).head? = some
      (Effect.showModalDialog
        DefaultDialogs.DIALOG_ID_CHANGE_EXTENSIONS
        Strings.CHANGE_AND_RELOAD_TITLE
        (Message.text Strings.CHANGE_AND_RELOAD_MESSAGE)
        (some [
          { className := ButtonClass.DIALOG_BTN_CLASS_NORMAL,
            id := ButtonId.DIALOG_BTN_CANCEL,
            text := Strings.CANCEL },
          { className := ButtonClass.DIALOG_BTN_CLASS_PRIMARY,
            id := ButtonId.DIALOG_BTN_OK,
            text := Strings.UPDATE_AND_RELOAD }])
        (some false)) :=
  ⟨rfl, rfl, (performChanges_prompt_label cancelScenario).2.2.1 rfl rfl⟩

/-- C4: when the prompt is dismissed with any button other than Confirm, the handler
closes the prompt, calls `cleanupUpdates` and `unmarkAllForRemoval`, and nothing else:
neither batch is started and `APP_RELOAD` is never executed. -/
theorem performChanges_cancel (s : Scenario) (buttonId : ButtonId)
    (hprompt : s.hasExtensionsToRemove = true ∨ s.hasExtensionsToUpdate = true)
    (hclick : s.buttonClick = some buttonId)
    (hnotok : buttonId ≠ ButtonId.DIALOG_BTN_OK) :
    _performChanges s =
      [confirmationPrompt (buttonLabel s.hasExtensionsToRemove s.hasExtensionsToUpdate),
       Effect.dlgClose, Effect.cleanupUpdates, Effect.unmarkAllForRemoval] ∧
    Effect.unmarkAllForRemoval ∈ _performChanges s ∧
    Effect.cleanupUpdates ∈ _performChanges s ∧
    Effect.removeMarkedExtensions ∉ _performChanges s ∧
    Effect.updateExtensions ∉ _performChanges s ∧
    reloadCount (_performChanges s) = 0 := by
  have h : _performChanges s =
      [confirmationPrompt (buttonLabel s.hasExtensionsToRemove s.hasExtensionsToUpdate),
       Effect.dlgClose, Effect.cleanupUpdates, Effect.unmarkAllForRemoval] := by
    unfold _performChanges
    rcases hprompt with hp | hp <;> simp [hp, hclick, onButtonClick, hnotok]
  rw [h]
  simp [reloadCount, confirmationPrompt]

/-- Witness of C4 on the scenario where the Cancel button is clicked. -/
theorem performChanges_cancel_witness :
    cancelScenario.buttonClick = some ButtonId.DIALOG_BTN_CANCEL ∧
    _performChanges cancelScenario =
      [confirmationPrompt Strings.UPDATE_AND_RELOAD,
       Effect.dlgClose, Effect.cleanupUpdates, Effect.unmarkAllForRemoval] :=
  ⟨rfl, (performChanges_cancel cancelScenario ButtonId.DIALOG_BTN_CANCEL (Or.inr rfl) rfl
    (by decide)).1⟩

/-- C5: when, after Confirm, `removeMarkedExtensions` fails with `errorArray`, the
trace is exactly: prompt, progress display, the removal call, `dlg.close()`,
`cleanupUpdates`, the error summary whose text is formatted from the `item` of every
entry in array order, joined with `", "`, and then, once that summary is dismissed,
the reload.  `updateExtensions` is never invoked. -/
theorem performChanges_removal_fails (s : Scenario) (errorArray : List ErrorObj)
    (hprompt : s.hasExtensionsToRemove = true ∨ s.hasExtensionsToUpdate = true)
    (hok : s.buttonClick = some ButtonId.DIALOG_BTN_OK)
    (hfail : s.removeMarkedExtensions = BatchResult.rejected errorArray) :
    _performChanges s =
      [confirmationPrompt (buttonLabel s.hasExtensionsToRemove s.hasExtensionsToUpdate),
       Effect.disableButtons, Effect.hideClose,
       Effect.showProcessing Strings.PROCESSING_EXTENSIONS,
       Effect.removeMarkedExtensions,
       Effect.dlgClose,
       Effect.cleanupUpdates,
       Effect.showModalDialog DefaultDialogs.DIALOG_ID_ERROR Strings.EXTENSION_MANAGER_REMOVE
         (Message.format Strings.EXTENSION_MANAGER_REMOVE_ERROR
           (", ".intercalate (errorArray.map ErrorObj.item)))
         none none]
        ++ (if s.errorDialogClosed = true then [Effect.execute Commands.APP_RELOAD] else []) ∧
    Effect.updateExtensions ∉ _performChanges s ∧
    Effect.cleanupUpdates ∈ _performChanges s ∧
    (s.errorDialogClosed = true → reloadCount (_performChanges s) = 1) := by
  have h := performChanges_confirm s hprompt hok
  simp only [afterRemove, hfail, onRemoveRejected, afterErrorDialog, removeErrorDialog,
    joinedIds] at h
  rw [h]
  refine ⟨by simp, ?_, by simp, ?_⟩
  · cases s.errorDialogClosed <;> simp [confirmationPrompt]
  · intro hclosed
    simp [hclosed, reloadCount, confirmationPrompt]

/-- Witness of C5 on the scenario where the removal of two extensions fails: the
summary names `"ext.a, ext.b"` and one reload follows. -/
theorem performChanges_removal_fails_witness :
    removalFailsScenario.buttonClick = some ButtonId.DIALOG_BTN_OK ∧
    Effect.showModalDialog DefaultDialogs.DIALOG_ID_ERROR Strings.EXTENSION_MANAGER_REMOVE
        (Message.format Strings.EXTENSION_MANAGER_REMOVE_ERROR "ext.a, ext.b") none none
      ∈ _performChanges removalFailsScenario ∧
    Effect.updateExtensions ∉ _performChanges removalFailsScenario ∧
    reloadCount (_performChanges removalFailsScenario) = 1 :=
  have h := performChanges_removal_fails removalFailsScenario _ (Or.inl rfl) rfl rfl
  ⟨rfl, by rw [h.1]; decide, h.2.1, h.2.2.2 rfl⟩

/-! ## Theorems about the drop classifier -/

/-- What validation and classification do to the state: one `validate` call is
recorded and at most one of the buckets receives the file. -/
theorem validateAndClassify_state (env : DropEnv) (path : String) (file : FileEntry)
    (st : DropState) :
    (validateAndClassify env path file st).1.calls =
      st.calls ++ [DropCall.validate path true] ∧
    (∃ added, (validateAndClassify env path file st).1.installZips = st.installZips ++ added) ∧
    (∃ added, (validateAndClassify env path file st).1.updateZips = st.updateZips ++ added) ∧
    (validateAndClassify env path file st).2 ≠ Settled.pending := by
  unfold validateAndClassify
  cases env.validate path with
  | rejected err => exact ⟨rfl, ⟨[], by simp⟩, ⟨[], by simp⟩, by simp⟩
  | resolved info =>
      by_cases herr : info.errors.length ≠ 0
      · simp only []
        rw [if_pos herr]
        exact ⟨rfl, ⟨[], by simp⟩, ⟨[], by simp⟩, by simp⟩
      · by_cases hupd : (match env.extensions info.metadata.name with
            | some extensionInfo => extensionInfo.installInfo
            | none => false) = true
        · simp only []
          rw [if_neg herr, if_pos hupd]
          exact ⟨rfl, ⟨[], by simp⟩, ⟨[file], rfl⟩, by simp⟩
        · simp only []
          rw [if_neg herr, if_neg hupd]
          exact ⟨rfl, ⟨[file], rfl⟩, ⟨[], by simp⟩, by simp⟩

/-- The per-path operation only appends to the two buckets. -/
theorem validateDroppedPath_buckets (env : DropEnv) (path : String) (st : DropState) :
    (∃ added, (validateDroppedPath env path st).1.installZips = st.installZips ++ added) ∧
    (∃ added, (validateDroppedPath env path st).1.updateZips = st.updateZips ++ added) := by
  unfold validateDroppedPath
  cases env.resolve path with
  | mk err file =>
    cases file with
    | none => exact ⟨⟨[], by simp⟩, ⟨[], by simp⟩⟩
    | some file =>
        have h := validateAndClassify_state env path file
          { st with calls := st.calls ++ [DropCall.resolve path] }
        simp only
        split
        · split
          · exact ⟨⟨[], by simp⟩, ⟨[], by simp⟩⟩
          · exact ⟨h.2.1, h.2.2.1⟩
        · exact ⟨h.2.1, h.2.2.1⟩

/-- The state after a batch is the state after the batch over the remaining items,
started from the state the first item leaves. -/
theorem doInParallel_state_cons {σ : Type} (item : String) (rest : List String)
    (op : String → σ → σ × Settled) (st : σ) :
    (doInParallel_aggregateErrors (item :: rest) op st).state =
      (doInParallel_aggregateErrors rest op (op item st).1).state := by
  rw [doInParallel_aggregateErrors]
  split <;> rfl

/-- The errors collected after the first item are kept. -/
theorem doInParallel_errors_cons {σ : Type} (item : String) (rest : List String)
    (op : String → σ → σ × Settled) (st : σ) (entry : ErrorItem)
    (h : entry ∈ (doInParallel_aggregateErrors rest op (op item st).1).errors) :
    entry ∈ (doInParallel_aggregateErrors (item :: rest) op st).errors := by
  rw [doInParallel_aggregateErrors]
  split
  · exact h
  · exact List.mem_cons_of_mem _ h
  · exact h

/-- A rejected first item heads the aggregated error list. -/
theorem doInParallel_errors_head {σ : Type} (item : String) (rest : List String)
    (op : String → σ → σ × Settled) (st : σ) (error : String)
    (h : (op item st).2 = Settled.rejected error) :
    { item := item, error := error } ∈
      (doInParallel_aggregateErrors (item :: rest) op st).errors := by
  rw [doInParallel_aggregateErrors, h]
  exact List.mem_cons_self _ _

/-- An item whose operation rejects with `error` from every state appears in the
aggregated error list with that error. -/
theorem doInParallel_rejected_mem {σ : Type} (op : String → σ → σ × Settled)
    (item error : String) (hrej : ∀ st, (op item st).2 = Settled.rejected error)
    (items : List String) (hmem : item ∈ items) (st : σ) :
    { item := item, error := error } ∈ (doInParallel_aggregateErrors items op st).errors := by
  induction items generalizing st with
  | nil => exact absurd hmem (List.not_mem_nil _)
  | cons head rest ih =>
      rcases List.mem_cons.mp hmem with h | h
      · rw [← h]
        exact doInParallel_errors_head item rest op st error (hrej st)
      · exact doInParallel_errors_cons head rest op st _ (ih h _)

/-- The batch of per-path operations only appends to the two buckets. -/
theorem doInParallel_buckets (env : DropEnv) (paths : List String) (st : DropState) :
    (∃ added, (doInParallel_aggregateErrors paths (validateDroppedPath env) st).state.installZips
        = st.installZips ++ added) ∧
    (∃ added, (doInParallel_aggregateErrors paths (validateDroppedPath env) st).state.updateZips
        = st.updateZips ++ added) := by
  induction paths generalizing st with
  | nil => exact ⟨⟨[], by simp [doInParallel_aggregateErrors]⟩,
      ⟨[], by simp [doInParallel_aggregateErrors]⟩⟩
  | cons head rest ih =>
      rw [doInParallel_state_cons]
      obtain ⟨⟨a₁, h₁⟩, ⟨b₁, hb₁⟩⟩ := validateDroppedPath_buckets env head st
      obtain ⟨⟨a₂, h₂⟩, ⟨b₂, hb₂⟩⟩ := ih (validateDroppedPath env head st).1
      exact ⟨⟨a₁ ++ a₂, by rw [h₂, h₁, List.append_assoc]⟩,
        ⟨b₁ ++ b₂, by rw [hb₂, hb₁, List.append_assoc]⟩⟩

/-- A file the per-path operation pushes to `updateZips` from every state is in the
update bucket once the batch is over. -/
theorem doInParallel_updateZips_mem (env : DropEnv) (path : String) (file : FileEntry)
    (hpush : ∀ st, (validateDroppedPath env path st).1.updateZips = st.updateZips ++ [file])
    (paths : List String) (hmem : path ∈ paths) (st : DropState) :
    file ∈ (doInParallel_aggregateErrors paths (validateDroppedPath env) st).state.updateZips := by
  induction paths generalizing st with
  | nil => exact absurd hmem (List.not_mem_nil _)
  | cons head rest ih =>
      rw [doInParallel_state_cons]
      rcases List.mem_cons.mp hmem with h | h
      · obtain ⟨added, hadded⟩ :=
          (doInParallel_buckets env rest (validateDroppedPath env head st).1).2
        rw [hadded, ← h, hpush]
        simp
      · exact ih h _

/-- A file the per-path operation pushes to `installZips` from every state is in the
install bucket once the batch is over. -/
theorem doInParallel_installZips_mem (env : DropEnv) (path : String) (file : FileEntry)
    (hpush : ∀ st, (validateDroppedPath env path st).1.installZips = st.installZips ++ [file])
    (paths : List String) (hmem : path ∈ paths) (st : DropState) :
    file ∈ (doInParallel_aggregateErrors paths (validateDroppedPath env) st).state.installZips := by
  induction paths generalizing st with
  | nil => exact absurd hmem (List.not_mem_nil _)
  | cons head rest ih =>
      rw [doInParallel_state_cons]
      rcases List.mem_cons.mp hmem with h | h
      · obtain ⟨added, hadded⟩ :=
          (doInParallel_buckets env rest (validateDroppedPath env head st).1).1
        rw [hadded, ← h, hpush]
        simp
      · exact ih h _

/-- The calls one per-path operation records: `resolve` of its own path, then at most
a `validate` of its own path. -/
theorem validateDroppedPath_calls (env : DropEnv) (path : String) (st : DropState) :
    (validateDroppedPath env path st).1.calls = st.calls ++ [DropCall.resolve path] ∨
    (validateDroppedPath env path st).1.calls =
      st.calls ++ [DropCall.resolve path, DropCall.validate path true] := by
  unfold validateDroppedPath
  cases env.resolve path with
  | mk err file =>
    cases file with
    | none => exact Or.inl rfl
    | some file =>
        have h := (validateAndClassify_state env path file
          { st with calls := st.calls ++ [DropCall.resolve path] }).1
        simp only [List.append_assoc, List.singleton_append] at h
        simp only
        split
        · split
          · exact Or.inl rfl
          · exact Or.inr h
        · exact Or.inr h

/-- When the operation for `path` never validates, no `validate` call for `path` is
recorded by the batch. -/
theorem doInParallel_no_validate (env : DropEnv) (path : String)
    (hcalls : ∀ st, (validateDroppedPath env path st).1.calls =
      st.calls ++ [DropCall.resolve path])
    (paths : List String) (st : DropState)
    (hst : ∀ b, DropCall.validate path b ∉ st.calls) :
    ∀ b, DropCall.validate path b ∉
      (doInParallel_aggregateErrors paths (validateDroppedPath env) st).state.calls := by
  induction paths generalizing st with
  | nil => simpa [doInParallel_aggregateErrors] using hst
  | cons head rest ih =>
      rw [doInParallel_state_cons]
      apply ih
      intro b hb
      by_cases hhead : head = path
      · rw [hhead, hcalls] at hb
        rcases List.mem_append.mp hb with h | h
        · exact hst b h
        · simp at h
      · rcases validateDroppedPath_calls env head st with h | h
        · rw [h] at hb
          rcases List.mem_append.mp hb with h' | h'
          · exact hst b h'
          · simp at h'
        · rw [h] at hb
          rcases List.mem_append.mp hb with h' | h'
          · exact hst b h'
          · simp only [List.mem_cons, List.mem_singleton, List.not_mem_nil, or_false,
              DropCall.validate.injEq] at h'
            rcases h' with h' | h'
            · cases h'
            · exact hhead h'.1.symm

/-- C6, evaluated: two paths are dropped, a valid new archive and a path that does not
exist.  The archive lands in the install bucket; the missing path lands nowhere: it
is in neither bucket and in no error entry, and the aggregated promise stays pending,
so no error list is ever delivered. -/
theorem validatePromise_loses_missing_path :
    (validatePromise sampleDropEnv ["/drop/bar.zip", "/drop/missing.zip"]).state.installZips =
      [{ fullPath := "/drop/bar.zip", isFile := true }] ∧
    (validatePromise sampleDropEnv ["/drop/bar.zip", "/drop/missing.zip"]).state.updateZips = [] ∧
    (validatePromise sampleDropEnv ["/drop/bar.zip", "/drop/missing.zip"]).errors = [] ∧
    (validatePromise sampleDropEnv ["/drop/bar.zip", "/drop/missing.zip"]).pending =
      ["/drop/missing.zip"] ∧
    (validatePromise sampleDropEnv ["/drop/bar.zip", "/drop/missing.zip"]).promise =
      PromiseState.pending := by
  decide

/-- C7: a dropped path that resolves to a zip file and validates with no errors is
classified by the validated name.  If `ExtensionManager.extensions[name]` exists and
has `installInfo`, the operation pushes the file to `updateZips`, leaves `installZips`
alone and resolves, and the file is in the update bucket when the batch is over;
otherwise it pushes the file to `installZips`, leaves `updateZips` alone and
resolves, and the file is in the install bucket when the batch is over. -/
theorem validateDroppedPath_classifies (env : DropEnv) (paths : List String)
    (path : String) (file : FileEntry) (info : ValidationInfo)
    (hmem : path ∈ paths)
    (hresolve : env.resolve path = { err := none, file := some file })
    (hfile : file.isFile = true)
    (hzip : env.getFileExtension path = "zip")
    (hvalid : env.validate path = ValidateResult.resolved info)
    (herrors : info.errors = []) :
    ((∃ extensionInfo, env.extensions info.metadata.name = some extensionInfo ∧
          extensionInfo.installInfo = true) →
      (∀ st, validateDroppedPath env path st =
        ({ installZips := st.installZips,
           updateZips := st.updateZips ++ [file],
           calls := st.calls ++ [DropCall.resolve path, DropCall.validate path true] },
         Settled.resolved)) ∧
      file ∈ (validatePromise env paths).state.updateZips) ∧
    ((¬ ∃ extensionInfo, env.extensions info.metadata.name = some extensionInfo ∧
          extensionInfo.installInfo = true) →
      (∀ st, validateDroppedPath env path st =
        ({ installZips := st.installZips ++ [file],
           updateZips := st.updateZips,
           calls := st.calls ++ [DropCall.resolve path, DropCall.validate path true] },
         Settled.resolved)) ∧
      file ∈ (validatePromise env paths).state.installZips) := by
  have hlen : ¬ (info.errors.length ≠ 0) := by simp [herrors]
  constructor
  · rintro ⟨extensionInfo, hext, hinstall⟩
    have hop : ∀ st, validateDroppedPath env path st =
        ({ installZips := st.installZips,
           updateZips := st.updateZips ++ [file],
           calls := st.calls ++ [DropCall.resolve path, DropCall.validate path true] },
         Settled.resolved) := by
      intro st
      simp [validateDroppedPath, hresolve, hfile, hzip, validateAndClassify, hvalid, herrors,
        hext, hinstall]
    refine ⟨hop, ?_⟩
    exact doInParallel_updateZips_mem env path file (fun st => by rw [hop st]) paths hmem _
  · intro hnot
    have hupd : (match env.extensions info.metadata.name with
        | some extensionInfo => extensionInfo.installInfo
        | none => false) = false := by
      cases hext : env.extensions info.metadata.name with
      | none => rfl
      | some extensionInfo =>
          cases hinstall : extensionInfo.installInfo with
          | false => simp [hinstall]
          | true => exact absurd ⟨extensionInfo, hext, hinstall⟩ hnot
    have hop : ∀ st, validateDroppedPath env path st =
        ({ installZips := st.installZips ++ [file],
           updateZips := st.updateZips,
           calls := st.calls ++ [DropCall.resolve path, DropCall.validate path true] },
         Settled.resolved) := by
      intro st
      simp [validateDroppedPath, hresolve, hfile, hzip, validateAndClassify, hvalid, herrors,
        hupd]
    refine ⟨hop, ?_⟩
    exact doInParallel_installZips_mem env path file (fun st => by rw [hop st]) paths hmem _

/-- Witness of C7: with `"foo"` installed and `"bar"` not, the archive of `foo` goes to
`updateZips` and the archive of `bar` to `installZips`. -/
theorem validateDroppedPath_classifies_witness :
    ({ fullPath := "/drop/foo.zip", isFile := true } : FileEntry) ∈
      (validatePromise sampleDropEnv ["/drop/foo.zip", "/drop/bar.zip"]).state.updateZips ∧
    ({ fullPath := "/drop/bar.zip", isFile := true } : FileEntry) ∈
      (validatePromise sampleDropEnv ["/drop/foo.zip", "/drop/bar.zip"]).state.installZips :=
  ⟨((validateDroppedPath_classifies sampleDropEnv ["/drop/foo.zip", "/drop/bar.zip"]
      "/drop/foo.zip" { fullPath := "/drop/foo.zip", isFile := true }
      { errors := [], metadata := { name := "foo" } }
      (by decide) (by decide) rfl (by decide) (by decide) rfl).1
      ⟨{ installInfo := true }, by decide, rfl⟩).2,
   ((validateDroppedPath_classifies sampleDropEnv ["/drop/foo.zip", "/drop/bar.zip"]
      "/drop/bar.zip" { fullPath := "/drop/bar.zip", isFile := true }
      { errors := [], metadata := { name := "bar" } }
      (by decide) (by decide) rfl (by decide) (by decide) rfl).2
      (by
        rintro ⟨extensionInfo, hext, -⟩
        have hnone : sampleDropEnv.extensions "bar" = none := by decide
        rw [hnone] at hext
        cases hext)).2⟩

/-- C8: a dropped path whose resolved entry is not a file, or whose extension is not
`"zip"`, is rejected with `Strings.INVALID_ZIP_FILE` (a non-empty message): the
operation records the `resolve` call only, leaves both buckets as they were, and the
batch lists `{item: path, error: INVALID_ZIP_FILE}` and never calls `Package.validate`
for that path. -/
theorem validateDroppedPath_rejects_non_zip (env : DropEnv) (paths : List String)
    (path : String) (file : FileEntry)
    (hmem : path ∈ paths)
    (hresolve : env.resolve path = { err := none, file := some file })
    (hnotzip : file.isFile = false ∨ env.getFileExtension path ≠ "zip")
    (hmessage : env.INVALID_ZIP_FILE ≠ "") :
    (∀ st, validateDroppedPath env path st =
      ({ installZips := st.installZips,
         updateZips := st.updateZips,
         calls := st.calls ++ [DropCall.resolve path] },
       Settled.rejected env.INVALID_ZIP_FILE)) ∧
    { item := path, error := env.INVALID_ZIP_FILE } ∈ (validatePromise env paths).errors ∧
    (∀ b, DropCall.validate path b ∉ (validatePromise env paths).state.calls) := by
  have hop : ∀ st, validateDroppedPath env path st =
      ({ installZips := st.installZips,
         updateZips := st.updateZips,
         calls := st.calls ++ [DropCall.resolve path] },
       Settled.rejected env.INVALID_ZIP_FILE) := by
    intro st
    rcases hnotzip with h | h <;> simp [validateDroppedPath, hresolve, h, hmessage]
  refine ⟨hop, ?_, ?_⟩
  · exact doInParallel_rejected_mem _ path _ (fun st => by rw [hop st]) paths hmem _
  · exact doInParallel_no_validate env path (fun st => by rw [hop st]) paths _
      (fun b hb => absurd hb (List.not_mem_nil _))

/-- Witness of C8: a dropped `.txt` file is rejected with the invalid-package
message. -/
theorem validateDroppedPath_rejects_non_zip_witness :
    sampleDropEnv.getFileExtension "/drop/notes.txt" ≠ "zip" ∧
    (validatePromise sampleDropEnv ["/drop/foo.zip", "/drop/notes.txt"]).errors =
      [{ item := "/drop/notes.txt",
         error := "The downloaded content is not a valid zip file." }] ∧
    (∀ b, DropCall.validate "/drop/notes.txt" b ∉
      (validatePromise sampleDropEnv ["/drop/foo.zip", "/drop/notes.txt"]).state.calls) :=
  ⟨by decide, by decide,
   (validateDroppedPath_rejects_non_zip sampleDropEnv ["/drop/foo.zip", "/drop/notes.txt"]
      "/drop/notes.txt" { fullPath := "/drop/notes.txt", isFile := true }
      (by decide) (by decide) (Or.inr (by decide)) (by decide)).2.2⟩

/-- C9, evaluated: the only dropped path does not exist, `FileSystem.resolve` reports
`"NotFound"` and supplies no file entry.  The operation records the `resolve` call and
its promise stays pending: it is not rejected with
`FileUtils.getFileErrorString("NotFound")`, the path is in no error entry, and the
aggregated promise is neither resolved nor rejected. -/
theorem validateDroppedPath_missing_file_never_settles :
    sampleDropEnv.resolve "/drop/missing.zip" = { err := some "NotFound", file := none } ∧
    validateDroppedPath sampleDropEnv "/drop/missing.zip"
        { installZips := [], updateZips := [], calls := [] } =
      ({ installZips := [], updateZips := [],
         calls := [DropCall.resolve "/drop/missing.zip"] }, Settled.pending) ∧
    (validateDroppedPath sampleDropEnv "/drop/missing.zip"
        { installZips := [], updateZips := [], calls := [] }).2 ≠
      Settled.rejected (sampleDropEnv.getFileErrorString "NotFound") ∧
    (validatePromise sampleDropEnv ["/drop/missing.zip"]).errors = [] ∧
    (validatePromise sampleDropEnv ["/drop/missing.zip"]).promise = PromiseState.pending := by
  decide

/-- When a file entry is supplied, the per-path operation does exactly one of three
things: reject and push nothing, push the file to `installZips` only and resolve, or
push the file to `updateZips` only and resolve. -/
theorem validateDroppedPath_one_of_three (env : DropEnv) (path : String) (file : FileEntry)
    (st : DropState) (hfile : (env.resolve path).file = some file) :
    ((validateDroppedPath env path st).1.installZips = st.installZips ∧
      (validateDroppedPath env path st).1.updateZips = st.updateZips ∧
      ∃ error, (validateDroppedPath env path st).2 = Settled.rejected error) ∨
    ((validateDroppedPath env path st).1.installZips = st.installZips ++ [file] ∧
      (validateDroppedPath env path st).1.updateZips = st.updateZips ∧
      (validateDroppedPath env path st).2 = Settled.resolved) ∨
    ((validateDroppedPath env path st).1.installZips = st.installZips ∧
      (validateDroppedPath env path st).1.updateZips = st.updateZips ++ [file] ∧
      (validateDroppedPath env path st).2 = Settled.resolved) := by
  have hclassify : ∀ st' : DropState,
      ((validateAndClassify env path file st').1.installZips = st'.installZips ∧
        (validateAndClassify env path file st').1.updateZips = st'.updateZips ∧
        ∃ error, (validateAndClassify env path file st').2 = Settled.rejected error) ∨
      ((validateAndClassify env path file st').1.installZips = st'.installZips ++ [file] ∧
        (validateAndClassify env path file st').1.updateZips = st'.updateZips ∧
        (validateAndClassify env path file st').2 = Settled.resolved) ∨
      ((validateAndClassify env path file st').1.installZips = st'.installZips ∧
        (validateAndClassify env path file st').1.updateZips = st'.updateZips ++ [file] ∧
        (validateAndClassify env path file st').2 = Settled.resolved) := by
    intro st'
    unfold validateAndClassify
    cases env.validate path with
    | rejected err => exact Or.inl ⟨rfl, rfl, _, rfl⟩
    | resolved info =>
        by_cases herr : info.errors.length ≠ 0
        · simp only []
          rw [if_pos herr]
          exact Or.inl ⟨rfl, rfl, _, rfl⟩
        · by_cases hupd : (match env.extensions info.metadata.name with
              | some extensionInfo => extensionInfo.installInfo
              | none => false) = true
          · simp only []
            rw [if_neg herr, if_pos hupd]
            exact Or.inr (Or.inr ⟨rfl, rfl, rfl⟩)
          · simp only []
            rw [if_neg herr, if_neg hupd]
            exact Or.inr (Or.inl ⟨rfl, rfl, rfl⟩)
  unfold validateDroppedPath
  revert hfile
  cases env.resolve path with
  | mk err file' =>
    intro hfile
    simp only at hfile
    subst hfile
    have h := hclassify { st with calls := st.calls ++ [DropCall.resolve path] }
    simp only
    split
    · split
      · exact Or.inl ⟨rfl, rfl, _, rfl⟩
      · exact h
    · exact h

/-- The batch after a first item that resolved. -/
theorem doInParallel_cons_resolved {σ : Type} (item : String) (rest : List String)
    (op : String → σ → σ × Settled) (st : σ) (h : (op item st).2 = Settled.resolved) :
    doInParallel_aggregateErrors (item :: rest) op st =
      doInParallel_aggregateErrors rest op (op item st).1 := by
  rw [doInParallel_aggregateErrors, h]

/-- The batch after a first item that was rejected. -/
theorem doInParallel_cons_rejected {σ : Type} (item : String) (rest : List String)
    (op : String → σ → σ × Settled) (st : σ) (error : String)
    (h : (op item st).2 = Settled.rejected error) :
    doInParallel_aggregateErrors (item :: rest) op st =
      { doInParallel_aggregateErrors rest op (op item st).1 with
        errors := { item := item, error := error } ::
          (doInParallel_aggregateErrors rest op (op item st).1).errors } := by
  rw [doInParallel_aggregateErrors, h]

/-- Every path for which `FileSystem.resolve` supplies a file entry is accounted for
exactly once: every operation settles, and the sizes of the install bucket, the update
bucket and the aggregated error list add up to the number of dropped paths. -/
theorem doInParallel_accounts_for_resolved_paths (env : DropEnv) (paths : List String)
    (hfiles : ∀ path ∈ paths, (env.resolve path).file ≠ none) (st : DropState) :
    (doInParallel_aggregateErrors paths (validateDroppedPath env) st).pending = [] ∧
    (doInParallel_aggregateErrors paths (validateDroppedPath env) st).state.installZips.length +
      (doInParallel_aggregateErrors paths (validateDroppedPath env) st).state.updateZips.length +
      (doInParallel_aggregateErrors paths (validateDroppedPath env) st).errors.length =
    st.installZips.length + st.updateZips.length + paths.length := by
  induction paths generalizing st with
  | nil => simp [doInParallel_aggregateErrors]
  | cons head rest ih =>
      have hrest : ∀ path ∈ rest, (env.resolve path).file ≠ none :=
        fun path hp => hfiles path (List.mem_cons_of_mem _ hp)
      obtain ⟨file, hfile⟩ := Option.ne_none_iff_exists'.mp (hfiles head (List.mem_cons_self _ _))
      obtain ⟨hpending, hcount⟩ := ih hrest (validateDroppedPath env head st).1
      rcases validateDroppedPath_one_of_three env head file st hfile with
        ⟨hi, hu, error, hrej⟩ | ⟨hi, hu, hres⟩ | ⟨hi, hu, hres⟩
      · rw [doInParallel_cons_rejected head rest _ st error hrej]
        refine ⟨hpending, ?_⟩
        simp only [List.length_cons]
        rw [hi, hu] at hcount
        omega
      · rw [doInParallel_cons_resolved head rest _ st hres]
        refine ⟨hpending, ?_⟩
        rw [hi, hu, List.length_append] at hcount
        simp only [List.length_cons, List.length_nil] at hcount ⊢
        omega
      · rw [doInParallel_cons_resolved head rest _ st hres]
        refine ⟨hpending, ?_⟩
        rw [hi, hu, List.length_append] at hcount
        simp only [List.length_cons, List.length_nil] at hcount ⊢
        omega

/-- The partition of dropped paths holds whenever `FileSystem.resolve` supplies a file
entry for every path: the aggregated promise settles, and install bucket, update
bucket and error list together hold exactly one entry per dropped path. -/
theorem validatePromise_partition_of_resolved (env : DropEnv) (paths : List String)
    (hfiles : ∀ path ∈ paths, (env.resolve path).file ≠ none) :
    (validatePromise env paths).promise ≠ PromiseState.pending ∧
    (validatePromise env paths).state.installZips.length +
      (validatePromise env paths).state.updateZips.length +
      (validatePromise env paths).errors.length = paths.length := by
  obtain ⟨hpending, hcount⟩ := doInParallel_accounts_for_resolved_paths env paths hfiles
    { installZips := [], updateZips := [], calls := [] }
  refine ⟨?_, ?_⟩
  · unfold ParallelRun.promise validatePromise
    rw [hpending]
    simp only [ne_eq, not_true_eq_false, if_false]
    split <;> simp
  · unfold validatePromise
    simpa using hcount

/-- The partition on three dropped paths that all resolve: one update, one install,
one rejection. -/
theorem validatePromise_partition_of_resolved_witness :
    (validatePromise sampleDropEnv
      ["/drop/foo.zip", "/drop/bar.zip", "/drop/notes.txt"]).state.installZips.length +
    (validatePromise sampleDropEnv
      ["/drop/foo.zip", "/drop/bar.zip", "/drop/notes.txt"]).state.updateZips.length +
    (validatePromise sampleDropEnv
      ["/drop/foo.zip", "/drop/bar.zip", "/drop/notes.txt"]).errors.length = 3 :=
  (validatePromise_partition_of_resolved sampleDropEnv
    ["/drop/foo.zip", "/drop/bar.zip", "/drop/notes.txt"] (by decide)).2

/-! ## Theorems about tab cycling -/

/-- The set method `.eq` at a position inside the set selects that position. -/
theorem jQuery_eq_of_lt (length k : Nat) (h : k < length) :
    jQuery_eq length (k : Int) = some k := by
  unfold jQuery_eq
  have h₁ : ¬ ((k : Int) < 0) := by omega
  simp only [h₁, if_false, Int.add_zero]
  rw [if_pos ⟨by omega, by omega⟩]
  simp

/-- The set method `.eq` at `-1` selects the last position. -/
theorem jQuery_eq_neg_one (length : Nat) (h : 1 ≤ length) :
    jQuery_eq length (-1) = some (length - 1) := by
  unfold jQuery_eq
  have h₁ : ((-1 : Int) < 0) := by omega
  simp only [h₁, if_true]
  rw [if_pos ⟨by omega, by omega⟩]
  congr 1
  omega

/-- The remainder of `-1` by a count of at least two is `-1`, not `count - 1`. -/
theorem jsRem_neg_one (n : Nat) (hn : 2 ≤ n) : jsRem (-1) (n : Int) = some (-1) := by
  unfold jsRem
  rw [if_neg (by omega)]
  congr 1
  have h : (-1 : Int) = Int.negSucc 0 := rfl
  rw [h]
  show -Int.ofNat (Nat.succ 0 % n) = Int.negSucc 0
  rw [Nat.mod_eq_of_lt (by omega)]
  rfl

/-- Ctrl+Tab selects the next tab, the first one after the last. -/
theorem targetTab_forward (n i : Nat) (hi : i < n) :
    targetTab n i false = some (if i + 1 = n then 0 else i + 1) := by
  have hn : ¬ ((n : Int) = 0) := by omega
  simp only [targetTab, jsRem, Bool.false_eq_true, if_false, hn]
  by_cases hlast : i + 1 = n
  · have h : ((i : Int) + 1).tmod (n : Int) = ((0 : Nat) : Int) := by
      have : ((i : Int) + 1) = (n : Int) := by omega
      rw [this, Int.tmod_self]
      rfl
    rw [h, jQuery_eq_of_lt n 0 (by omega), if_pos hlast]
  · have h : ((i : Int) + 1).tmod (n : Int) = ((i + 1 : Nat) : Int) := by
      rw [Int.tmod_eq_of_lt (by omega) (by omega)]
      rfl
    rw [h, jQuery_eq_of_lt n (i + 1) (by omega), if_neg hlast]

/-- Ctrl+Shift+Tab selects the previous tab, the last one before the first. -/
theorem targetTab_backward (n i : Nat) (hi : i < n) :
    targetTab n i true = some (if i = 0 then n - 1 else i - 1) := by
  have hn : ¬ ((n : Int) = 0) := by omega
  simp only [targetTab, if_true]
  by_cases hfirst : i = 0
  · subst hfirst
    rw [if_pos rfl]
    by_cases hone : n = 1
    · subst hone
      decide
    · have h : ((0 : Nat) : Int) - 1 = -1 := by omega
      rw [h, jsRem_neg_one n (by omega)]
      simp only []
      rw [jQuery_eq_neg_one n (by omega)]
  · have h : jsRem ((i : Int) - 1) (n : Int) = some (((i - 1 : Nat) : Int)) := by
      unfold jsRem
      rw [if_neg hn, Int.tmod_eq_of_lt (by omega) (by omega)]
      congr 1
      omega
    rw [h]
    simp only []
    rw [jQuery_eq_of_lt n (i - 1) (by omega), if_neg hfirst]

/-- With a model at the current index and at the selected position, `setActiveTab`
completes and leaves the selected position in `_activeTabIndex`. -/
theorem setActiveTab_of_models (models : List ViewModel) (searchIsEmpty : Bool)
    (i j : Nat) (hi : i < models.length) (hj : j < models.length) :
    setActiveTab models searchIsEmpty i (some j) =
      { _activeTabIndex := j, threw := false } := by
  simp [setActiveTab, restoreScrollAndClearSearch, updateSearchDisabledThrows, hi, hj]

/-- Without a model at the current index, `setActiveTab` throws at line 315 and
leaves `_activeTabIndex` as it was. -/
theorem setActiveTab_without_model (models : List ViewModel) (searchIsEmpty : Bool)
    (i : Nat) (tab : Option Nat) (hi : ¬ i < models.length) :
    setActiveTab models searchIsEmpty i tab = { _activeTabIndex := i, threw := true } := by
  simp [setActiveTab, hi]

/-- Four tabs over the three models of a dialog with a registry: from index 3 the
handler throws and the index stays 3. -/
theorem keyupHandler_throws_beyond_models :
    keyupHandler 4 (models true) true 3
        { keyCode := DOM_VK_TAB, ctrlKey := true, shiftKey := false } =
      { _activeTabIndex := 3, threw := true } := by
  decide

/-- C10: with `n` tabs, `n >= 1`, one model per tab, and the active tab `i` in
`[0, n)`, the Ctrl+Tab handler completes and activates tab `(i + 1) mod n`, and the
Ctrl+Shift+Tab handler completes and activates tab `(i - 1) mod n` in the mathematical
sense; from the last tab forward is the first tab, from the first tab backward is the
last tab `n - 1`.  This holds whether or not the search field is empty. -/
theorem keyupHandler_cycles (n i : Nat) (models : List ViewModel) (searchIsEmpty : Bool)
    (hn : 1 ≤ n) (hi : i < n) (hmodels : models.length = n) :
    keyupHandler n models searchIsEmpty i
        { keyCode := DOM_VK_TAB, ctrlKey := true, shiftKey := false } =
      { _activeTabIndex := (i + 1) % n, threw := false } ∧
    (keyupHandler n models searchIsEmpty i
        { keyCode := DOM_VK_TAB, ctrlKey := true, shiftKey := true }).threw = false ∧
    (((keyupHandler n models searchIsEmpty i
        { keyCode := DOM_VK_TAB, ctrlKey := true, shiftKey := true })._activeTabIndex : Nat) : Int)
      = ((i : Int) - 1) % (n : Int) ∧
    keyupHandler n models searchIsEmpty (n - 1)
        { keyCode := DOM_VK_TAB, ctrlKey := true, shiftKey := false } =
      { _activeTabIndex := 0, threw := false } ∧
    keyupHandler n models searchIsEmpty 0
        { keyCode := DOM_VK_TAB, ctrlKey := true, shiftKey := true } =
      { _activeTabIndex := n - 1, threw := false } := by
  have hforward : ∀ k, k < n →
      keyupHandler n models searchIsEmpty k
          { keyCode := DOM_VK_TAB, ctrlKey := true, shiftKey := false } =
        { _activeTabIndex := (if k + 1 = n then 0 else k + 1), threw := false } := by
    intro k hk
    simp only [keyupHandler, and_self, if_true]
    rw [targetTab_forward n k hk]
    apply setActiveTab_of_models
    · omega
    · split <;> omega
  have hbackward : ∀ k, k < n →
      keyupHandler n models searchIsEmpty k
          { keyCode := DOM_VK_TAB, ctrlKey := true, shiftKey := true } =
        { _activeTabIndex := (if k = 0 then n - 1 else k - 1), threw := false } := by
    intro k hk
    simp only [keyupHandler, and_self, if_true]
    rw [targetTab_backward n k hk]
    apply setActiveTab_of_models
    · omega
    · split <;> omega
  refine ⟨?_, ?_, ?_, ?_, ?_⟩
  · rw [hforward i hi]
    by_cases hlast : i + 1 = n
    · rw [if_pos hlast, hlast, Nat.mod_self]
    · rw [if_neg hlast, Nat.mod_eq_of_lt (by omega)]
  · rw [hbackward i hi]
  · rw [hbackward i hi]
    by_cases hfirst : i = 0
    · subst hfirst
      simp only [if_true]
      have h : (((0 : Nat) : Int) - 1) = ((n : Int) - 1) + (-1) * (n : Int) := by ring
      rw [h, Int.add_mul_emod_self, Int.emod_eq_of_lt (by omega) (by omega)]
      omega
    · simp only [if_neg hfirst]
      rw [Int.emod_eq_of_lt (by omega) (by omega)]
      omega
  · rw [hforward (n - 1) (by omega), if_pos (by omega)]
  · rw [hbackward 0 (by omega), if_pos rfl]

/-- Witness of C10 on the dialog with a registry, three models and three tabs: forward
from the last tab is tab 0, backward from the first tab is tab 2. -/
theorem keyupHandler_cycles_witness :
    (models true).length = 3 ∧
    keyupHandler 3 (models true) true 2
        { keyCode := DOM_VK_TAB, ctrlKey := true, shiftKey := false } =
      { _activeTabIndex := 0, threw := false } ∧
    keyupHandler 3 (models true) true 0
        { keyCode := DOM_VK_TAB, ctrlKey := true, shiftKey := true } =
      { _activeTabIndex := 2, threw := false } :=
  ⟨rfl,
   (keyupHandler_cycles 3 2 (models true) true (by decide) (by decide) rfl).2.2.2.1,
   (keyupHandler_cycles 3 0 (models true) true (by decide) (by decide) rfl).2.2.2.2⟩

/-! ## Theorems about installs and updates after a drop -/

/-- The events of one install operation. -/
theorem installOperation_events (dialogs : DialogEnv) (file : FileEntry) :
    (installOperation dialogs file).events =
      [FlowEvent.installUsingDialog file,
       FlowEvent.dialogSettled file (installSucceeds dialogs file)] ∧
    (installOperation dialogs file).resolved = installSucceeds dialogs file := by
  unfold installOperation installSucceeds
  cases dialogs.installUsingDialog file <;> exact ⟨rfl, rfl⟩

/-- The install batch produces the install events of its files, and its promise is
resolved exactly when every install succeeds. -/
theorem doSequentially_install (dialogs : DialogEnv) (files : List FileEntry) :
    (doSequentially files (installOperation dialogs)).events = installEvents dialogs files ∧
    ((doSequentially files (installOperation dialogs)).resolved = true ↔
      ∀ file ∈ files, installSucceeds dialogs file = true) := by
  induction files with
  | nil => simp [doSequentially, installEvents]
  | cons file rest ih =>
      obtain ⟨hevents, hresolved⟩ := installOperation_events dialogs file
      rw [doSequentially]
      simp only [hevents, hresolved, ih.1, Bool.and_eq_true, ih.2]
      constructor
      · simp [installEvents]
      · simp

/-- The update batch produces the update events of its files. -/
theorem doSequentially_update (dialogs : DialogEnv) (files : List FileEntry) :
    (doSequentially files (updateOperation dialogs)).events = updateEvents dialogs files := by
  induction files with
  | nil => simp [doSequentially, updateEvents]
  | cons file rest ih =>
      have hone : (updateOperation dialogs file).events = updateEvents dialogs [file] := by
        unfold updateOperation updateEvents
        cases h : dialogs.updateUsingDialog file <;> simp [h]
      have hcons : updateEvents dialogs (file :: rest) =
          updateEvents dialogs [file] ++ updateEvents dialogs rest := by
        simp [updateEvents]
      rw [doSequentially]
      simp only [ih, hone, hcons]

/-- The dialog calls among install events: one install call per file, in order, and
no update call. -/
theorem installEvents_calls (dialogs : DialogEnv) (files : List FileEntry) :
    installCalls (installEvents dialogs files) = files ∧
    updateCalls (installEvents dialogs files) = [] := by
  induction files with
  | nil => simp [installEvents, installCalls, updateCalls]
  | cons file rest ih =>
      have hcons : installEvents dialogs (file :: rest) =
          [FlowEvent.installUsingDialog file,
           FlowEvent.dialogSettled file (installSucceeds dialogs file)]
            ++ installEvents dialogs rest := by
        simp [installEvents]
      rw [hcons]
      unfold installCalls updateCalls at ih ⊢
      rw [List.filterMap_append, List.filterMap_append, ih.1, ih.2]
      simp

/-- The dialog calls among update events: one update call per file, in order, and no
install call. -/
theorem updateEvents_calls (dialogs : DialogEnv) (files : List FileEntry) :
    updateCalls (updateEvents dialogs files) = files ∧
    installCalls (updateEvents dialogs files) = [] := by
  induction files with
  | nil => simp [updateEvents, installCalls, updateCalls]
  | cons file rest ih =>
      have hcons : updateEvents dialogs (file :: rest) =
          updateEvents dialogs [file] ++ updateEvents dialogs rest := by
        simp [updateEvents]
      have hone : updateCalls (updateEvents dialogs [file]) = [file] ∧
          installCalls (updateEvents dialogs [file]) = [] := by
        unfold updateEvents updateCalls installCalls
        cases h : dialogs.updateUsingDialog file <;> simp [h]
      rw [hcons]
      unfold installCalls updateCalls at ih hone ⊢
      rw [List.filterMap_append, List.filterMap_append, ih.1, ih.2, hone.1, hone.2]
      simp

/-- The events of a drop whose paths all validated: the install batch, then what
`updatePromise` adds. -/
theorem installUsingDragAndDrop_of_validated (env : DropEnv) (dialogs : DialogEnv)
    (paths : List String)
    (hvalid : (validatePromise env paths).promise = PromiseState.resolved) :
    _installUsingDragAndDrop env dialogs { err := none, paths := paths } =
      { promise := PromiseState.resolved,
        state := (validatePromise env paths).state,
        events :=
          installEvents dialogs (validatePromise env paths).state.installZips ++
            (updatePromise dialogs
              (doSequentially (validatePromise env paths).state.installZips
                (installOperation dialogs))
              (validatePromise env paths).state.updateZips).events } := by
  unfold _installUsingDragAndDrop
  simp only [hvalid, (doSequentially_install dialogs _).1]

/-- C11, as stated, fails: both dropped paths validate, the archive of `foo` is in the
update bucket, the install of `bar` is cancelled, and `updateUsingDialog` is invoked
for no file, so the update calls are not the update bucket. -/
theorem installUsingDragAndDrop_failed_install_skips_updates :
    (validatePromise sampleDropEnv ["/drop/foo.zip", "/drop/bar.zip"]).promise =
      PromiseState.resolved ∧
    (_installUsingDragAndDrop sampleDropEnv cancelledInstallDialogs
      { err := none, paths := ["/drop/foo.zip", "/drop/bar.zip"] }).state.updateZips =
      [{ fullPath := "/drop/foo.zip", isFile := true }] ∧
    (_installUsingDragAndDrop sampleDropEnv cancelledInstallDialogs
      { err := none, paths := ["/drop/foo.zip", "/drop/bar.zip"] }).events =
      [FlowEvent.installUsingDialog { fullPath := "/drop/bar.zip", isFile := true },
       FlowEvent.dialogSettled { fullPath := "/drop/bar.zip", isFile := true } false] ∧
    updateCalls (_installUsingDragAndDrop sampleDropEnv cancelledInstallDialogs
      { err := none, paths := ["/drop/foo.zip", "/drop/bar.zip"] }).events ≠
      (_installUsingDragAndDrop sampleDropEnv cancelledInstallDialogs
        { err := none, paths := ["/drop/foo.zip", "/drop/bar.zip"] }).state.updateZips := by
  decide

/-- C11, amended: when every dropped path validates, `installUsingDialog` is invoked
once per file of the install bucket, one at a time in bucket order.  If every install
succeeds, `updateUsingDialog` is then invoked once per file of the update bucket, one
at a time in bucket order, after every install has settled, and each successful
update is followed by `updateFromDownload(result)`.  If an install fails, the events
end with the install batch and no update is started. -/
theorem installUsingDragAndDrop_installs_then_updates (env : DropEnv) (dialogs : DialogEnv)
    (paths : List String)
    (hvalid : (validatePromise env paths).promise = PromiseState.resolved) :
    installCalls (_installUsingDragAndDrop env dialogs { err := none, paths := paths }).events =
      (validatePromise env paths).state.installZips ∧
    ((∀ file ∈ (validatePromise env paths).state.installZips,
        installSucceeds dialogs file = true) →
      (_installUsingDragAndDrop env dialogs { err := none, paths := paths }).events =
        installEvents dialogs (validatePromise env paths).state.installZips ++
          updateEvents dialogs (validatePromise env paths).state.updateZips ∧
      updateCalls (_installUsingDragAndDrop env dialogs { err := none, paths := paths }).events =
        (validatePromise env paths).state.updateZips) ∧
    ((∃ file ∈ (validatePromise env paths).state.installZips,
        installSucceeds dialogs file = false) →
      (_installUsingDragAndDrop env dialogs { err := none, paths := paths }).events =
        installEvents dialogs (validatePromise env paths).state.installZips ∧
      updateCalls (_installUsingDragAndDrop env dialogs { err := none, paths := paths }).events =
        []) := by
  rw [installUsingDragAndDrop_of_validated env dialogs paths hvalid]
  obtain ⟨-, hresolved⟩ :=
    doSequentially_install dialogs (validatePromise env paths).state.installZips
  have hinstall := installEvents_calls dialogs (validatePromise env paths).state.installZips
  have hupdate := updateEvents_calls dialogs (validatePromise env paths).state.updateZips
  refine ⟨?_, ?_, ?_⟩
  · simp only
    unfold updatePromise
    split
    · rw [doSequentially_update]
      unfold installCalls at hinstall hupdate ⊢
      rw [List.filterMap_append, hinstall.1, hupdate.2, List.append_nil]
    · unfold installCalls at hinstall ⊢
      rw [List.append_nil, hinstall.1]
  · intro hall
    have hres := hresolved.mpr hall
    simp only [updatePromise, hres, if_true, doSequentially_update]
    refine ⟨trivial, ?_⟩
    unfold updateCalls at hinstall hupdate ⊢
    rw [List.filterMap_append, hinstall.2, hupdate.1, List.nil_append]
  · rintro ⟨file, hmem, hfail⟩
    have hres : (doSequentially (validatePromise env paths).state.installZips
        (installOperation dialogs)).resolved = false := by
      cases h : (doSequentially (validatePromise env paths).state.installZips
        (installOperation dialogs)).resolved with
      | false => rfl
      | true =>
          have := hresolved.mp h file hmem
          rw [hfail] at this
          exact absurd this (by decide)
    simp only [updatePromise, hres, Bool.false_eq_true, if_false, List.append_nil]
    exact ⟨trivial, hinstall.2⟩

/-- Witness of the amended C11: `bar` is installed first, then `foo` is updated and
the registry is notified with the result of that update. -/
theorem installUsingDragAndDrop_installs_then_updates_witness :
    (validatePromise sampleDropEnv ["/drop/foo.zip", "/drop/bar.zip"]).promise =
      PromiseState.resolved ∧
    (_installUsingDragAndDrop sampleDropEnv succeedingDialogs
      { err := none, paths := ["/drop/foo.zip", "/drop/bar.zip"] }).events =
      [FlowEvent.installUsingDialog { fullPath := "/drop/bar.zip", isFile := true },
       FlowEvent.dialogSettled { fullPath := "/drop/bar.zip", isFile := true } true,
       FlowEvent.updateUsingDialog { fullPath := "/drop/foo.zip", isFile := true },
       FlowEvent.dialogSettled { fullPath := "/drop/foo.zip", isFile := true } true,
       FlowEvent.updateFromDownload "/drop/foo.zip"] :=
  ⟨by decide,
   ((installUsingDragAndDrop_installs_then_updates sampleDropEnv succeedingDialogs
      ["/drop/foo.zip", "/drop/bar.zip"] (by decide)).2.1 (by decide)).1.trans (by decide)⟩

/-- C12, evaluated: of two dropped paths, one is a valid archive and one does not
exist, so its resolution fails with no file entry.  No dialog is opened, but the
returned promise is not rejected with an aggregated list: it stays pending, and the
aggregated list never receives the failed path. -/
theorem installUsingDragAndDrop_failed_resolve_never_rejects :
    (_installUsingDragAndDrop sampleDropEnv succeedingDialogs
      { err := none, paths := ["/drop/foo.zip", "/drop/missing.zip"] }).events = [] ∧
    (_installUsingDragAndDrop sampleDropEnv succeedingDialogs
      { err := none, paths := ["/drop/foo.zip", "/drop/missing.zip"] }).promise =
      PromiseState.pending ∧
    (validatePromise sampleDropEnv ["/drop/foo.zip", "/drop/missing.zip"]).errors = [] ∧
    (validatePromise sampleDropEnv ["/drop/foo.zip", "/drop/missing.zip"]).state.updateZips =
      [{ fullPath := "/drop/foo.zip", isFile := true }] := by
  decide

/-- A failed validation, with every file entry supplied: when `FileSystem.resolve`
supplies a file entry for every dropped path and the operation for one path is
rejected, no dialog is opened for any path and the returned promise is rejected with
the aggregated list, which lists that path. -/
theorem installUsingDragAndDrop_rejects_on_failure (env : DropEnv) (dialogs : DialogEnv)
    (paths : List String) (path error : String)
    (hfiles : ∀ p ∈ paths, (env.resolve p).file ≠ none)
    (hmem : path ∈ paths)
    (hrejected : ∀ st, (validateDroppedPath env path st).2 = Settled.rejected error) :
    (_installUsingDragAndDrop env dialogs { err := none, paths := paths }).promise =
      PromiseState.rejected (validatePromise env paths).errors ∧
    { item := path, error := error } ∈ (validatePromise env paths).errors ∧
    (_installUsingDragAndDrop env dialogs { err := none, paths := paths }).events = [] := by
  have hlisted : { item := path, error := error } ∈ (validatePromise env paths).errors :=
    doInParallel_rejected_mem _ path error hrejected paths hmem _
  have hpending : (validatePromise env paths).pending = [] :=
    (doInParallel_accounts_for_resolved_paths env paths hfiles
      { installZips := [], updateZips := [], calls := [] }).1
  have herrors : (validatePromise env paths).errors ≠ [] := by
    intro h
    rw [h] at hlisted
    exact absurd hlisted (List.not_mem_nil _)
  have hpromise : (validatePromise env paths).promise =
      PromiseState.rejected (validatePromise env paths).errors := by
    unfold ParallelRun.promise
    rw [hpending, if_neg (by simp), if_neg herrors]
  refine ⟨?_, hlisted, ?_⟩ <;>
    · unfold _installUsingDragAndDrop
      simp only [hpromise]

/-- A dropped text file next to a valid archive: the promise is rejected with the
list naming the text file, and no dialog is opened. -/
theorem installUsingDragAndDrop_rejects_on_failure_witness :
    (_installUsingDragAndDrop sampleDropEnv succeedingDialogs
      { err := none, paths := ["/drop/foo.zip", "/drop/notes.txt"] }).promise =
      PromiseState.rejected
        [{ item := "/drop/notes.txt",
           error := "The downloaded content is not a valid zip file." }] ∧
    (_installUsingDragAndDrop sampleDropEnv succeedingDialogs
      { err := none, paths := ["/drop/foo.zip", "/drop/notes.txt"] }).events = [] :=
  have h := installUsingDragAndDrop_rejects_on_failure sampleDropEnv succeedingDialogs
    ["/drop/foo.zip", "/drop/notes.txt"] "/drop/notes.txt"
    "The downloaded content is not a valid zip file." (by decide) (by decide)
    (fun st => by simp [validateDroppedPath, sampleDropEnv])
  ⟨h.1.trans (by decide), h.2.2⟩

/-- Once every dropped path validates, the returned promise is resolved whatever the
install and update dialogs do; and when `getDroppedFiles` reports an error the promise
is resolved after logging it, with no classification and no dialog. -/
theorem installUsingDragAndDrop_resolves (env : DropEnv) (dialogs : DialogEnv)
    (paths : List String) :
    ((validatePromise env paths).promise = PromiseState.resolved →
      (_installUsingDragAndDrop env dialogs { err := none, paths := paths }).promise =
        PromiseState.resolved) ∧
    (∀ err, _installUsingDragAndDrop env dialogs { err := some err, paths := paths } =
      { promise := PromiseState.resolved,
        state := { installZips := [], updateZips := [], calls := [] },
        events := [FlowEvent.consoleError err] }) := by
  refine ⟨?_, ?_⟩
  · intro hvalid
    rw [installUsingDragAndDrop_of_validated env dialogs paths hvalid]
  · intro err
    rfl

/-- The returned promise is resolved although the only install is cancelled. -/
theorem installUsingDragAndDrop_resolves_witness :
    (_installUsingDragAndDrop sampleDropEnv cancelledInstallDialogs
      { err := none, paths := ["/drop/bar.zip"] }).promise = PromiseState.resolved :=
  (installUsingDragAndDrop_resolves sampleDropEnv cancelledInstallDialogs
    ["/drop/bar.zip"]).1 (by decide)

end ExtensionManagerDialog
